import Mathlib

/-!
# SR-IOV network device plugin: a verification development

A shallow embedding of the parts of the repository that the checked
properties are about:

* `cmd/sriovdp/sriov-device-plugin.go`: the manager `sriovManager`
  (`restorePodMapping`, `Allocate`, `getSriovPfList`, `discoverNetworks`,
  `Stop`, `GetDeviceInfo`);
* `pkg/resources/server.go`: the resource server `resourceServer`
  (`newResourceServer`, `GetInfo`, `NotifyRegistrationStatus`, `Allocate`,
  `ListAndWatch`, `Start`, `restart`, `Stop`, `Watch`, `cleanUp`, `getEnvs`);
* `pkg/netdevice/netResourcePool.go`: `netResourcePool.GetDeviceSpecs`;
* `pkg/features/features.go`: the feature gate (`set`, `SetFromMap`,
  `SetFromString`);
* the VFIO info provider, whose source file is not at hand.

Go maps are association lists with pairwise distinct keys (`GoMap`), read
with `mapGet` and written with `mapSet`.  A Go function returning
`(*T, error)` returns a pair of options here, `none` standing for `nil`.
-/

/-! ## Go maps -/

/-- A Go `map[string]V`: an association list, read through `mapGet`. -/
abbrev GoMap (V : Type) := List (String × V)

/-- The map read `v, ok := m[k]`: `none` when `ok` is false. -/
def mapGet {V : Type} : GoMap V → String → Option V
  | [], _ => none
  | (k', v) :: m, k => if k' = k then some v else mapGet m k

/-- The map write `m[k] = v`: replaces the value of an existing key, adds a
new key otherwise. -/
def mapSet {V : Type} : GoMap V → String → V → GoMap V
  | [], k, v => [(k, v)]
  | (k', v') :: m, k, v => if k' = k then (k, v) :: m else (k', v') :: mapSet m k v

/-- The map read `m[k]` of a slice-valued map: the nil (empty) slice when the
key is missing. -/
def mapGetSlice {V : Type} (m : GoMap (List V)) (k : String) : List V :=
  (mapGet m k).getD []

/-! ## cmd/sriovdp: the manager -/

namespace Sriovdp

/-- The constant `pluginapi.Healthy` of the kubelet device plugin API. -/
def Healthy : String := "Healthy"

/-- The constant `pluginapi.Unhealthy` of the kubelet device plugin API. -/
def Unhealthy : String := "Unhealthy"

/-- The kubelet API type `pluginapi.Device`. -/
structure Device where
  ID : String
  Health : String
  deriving DecidableEq, Repr

/-- The type `api.VfInformation`. -/
structure VfInformation where
  Pciaddr : String
  Vfid : Int
  Pfname : String
  deriving DecidableEq, Repr

/-- The type `deviceEntry`. -/
structure deviceEntry where
  deviceID : String
  allocated : Bool
  deriving DecidableEq, Repr

/-- The type `checkpoint.PodDevicesEntry`, as far as `restorePodMapping` reads it. -/
structure PodDevicesEntry where
  PodUID : String
  DeviceIDs : List String
  deriving DecidableEq, Repr

/-- The type `pluginapi.ContainerAllocateRequest` (with the pod information
this repository's API change adds to it). -/
structure ContainerAllocateRequest where
  PodUID : String
  ContName : String
  DevicesIDs : List String
  deriving DecidableEq, Repr

/-- The type `pluginapi.AllocateRequest`. -/
structure AllocateRequest where
  ContainerRequests : List ContainerAllocateRequest
  deriving DecidableEq, Repr

/-- The type `pluginapi.ContainerAllocateResponse`, as far as `Allocate` fills it. -/
structure ContainerAllocateResponse where
  Envs : GoMap String
  deriving DecidableEq, Repr

/-- The type `pluginapi.AllocateResponse`. -/
structure AllocateResponse where
  ContainerResponses : List ContainerAllocateResponse
  deriving DecidableEq, Repr

/-- The type `sriovManager`: `grpcServer` is `none` for the nil pointer and
`some n` for the n-th server instance; the Kubernetes client is an external
collaborator and has no field here. -/
structure sriovManager where
  socketFile : String
  devices : GoMap Device
  managedDevices : GoMap VfInformation
  grpcServer : Option Nat
  allocatedDevices : GoMap (List deviceEntry)
  deriving DecidableEq, Repr

/-- The manager `newSriovManager` builds before it replays the checkpoint. -/
def emptySriovManager : sriovManager :=
  { socketFile := "sriovNet.sock", devices := [], managedDevices := [],
    grpcServer := none, allocatedDevices := [] }

/-- The inner loop of `restorePodMapping`: the entries of one pod. -/
def restoreEntries (ids : List String) : List deviceEntry :=
  ids.foldl (fun dEntry d => dEntry ++ [{ deviceID := d, allocated := true }]) []

/-- The function `restorePodMapping`; `podEntries` and `err` are what
`checkpoint.GetPodEntries(resourceName)` returned (`err = none` for nil). -/
def restorePodMapping (sm : sriovManager) (podEntries : List PodDevicesEntry)
    (err : Option String) : sriovManager :=
  if err = none ∧ podEntries.length > 0 then
    podEntries.foldl
      (fun s p =>
        { s with allocatedDevices := mapSet s.allocatedDevices p.PodUID (restoreEntries p.DeviceIDs) })
      sm
  else sm

/-- The state of the loops of `Allocate`: the allocation record and the
string `pciAddrs`. -/
structure AllocState where
  allocatedDevices : GoMap (List deviceEntry)
  pciAddrs : String
  deriving DecidableEq, Repr

/-- The inner loop of `Allocate` over the device IDs of one container: the
loop stops with `some err` at the first ID that is missing or not healthy. -/
def allocateIDs (devices : GoMap Device) (podUID : String) :
    List String → AllocState → AllocState × Option String
  | [], st => (st, none)
  | id :: ids, st =>
    match mapGet devices id with
    | none => (st, some ("Error. Invalid allocation request with non-existing device " ++ id))
    | some dev =>
      if dev.Health ≠ Healthy then
        (st, some ("Error. Invalid allocation request with unhealthy device " ++ id))
      else
        allocateIDs devices podUID ids
          { allocatedDevices :=
              mapSet st.allocatedDevices podUID
                (mapGetSlice st.allocatedDevices podUID ++ [{ deviceID := id, allocated := false }]),
            pciAddrs := st.pciAddrs ++ id ++ "," }

/-- The outer loop of `Allocate` over the container requests. -/
def allocateContainers (devices : GoMap Device) :
    List ContainerAllocateRequest → AllocState → List ContainerAllocateResponse →
      AllocState × Option (List ContainerAllocateResponse) × Option String
  | [], st, resp => (st, some resp, none)
  | container :: rest, st, resp =>
    match allocateIDs devices container.PodUID container.DevicesIDs st with
    | (st1, some err) => (st1, none, some err)
    | (st1, none) =>
      allocateContainers devices rest st1
        (resp ++ [{ Envs := mapSet [] "SRIOV-VF-PCI-ADDR" st1.pciAddrs }])

/-- The method `sriovManager.Allocate`: the manager after the call, the
response (`none` for nil) and the error (`none` for nil). -/
def Allocate (sm : sriovManager) (rqt : AllocateRequest) :
    sriovManager × Option AllocateResponse × Option String :=
  match allocateContainers sm.devices rqt.ContainerRequests
      { allocatedDevices := sm.allocatedDevices, pciAddrs := "" } [] with
  | (st, resp, err) =>
    ({ sm with allocatedDevices := st.allocatedDevices },
      resp.map (fun r => { ContainerResponses := r }), err)

/-- A requested device ID that `Allocate` cannot serve: it is absent from the
inventory, or present with a health other than `Healthy`. -/
def unusable (devices : GoMap Device) (id : String) : Prop :=
  mapGet devices id = none ∨ ∃ dev, mapGet devices id = some dev ∧ dev.Health ≠ Healthy

instance (devices : GoMap Device) (id : String) : Decidable (unusable devices id) := by
  unfold unusable
  cases h : mapGet devices id with
  | none => exact isTrue (Or.inl rfl)
  | some dev =>
    by_cases hh : dev.Health ≠ Healthy
    · exact isTrue (Or.inr ⟨dev, rfl, hh⟩)
    · refine isFalse ?_
      rintro (h1 | ⟨d, hd, hne⟩)
      · cases h1
      · cases hd; exact hh hne

/-- The manager after a sequence of `Allocate` calls, successful or failed,
made one after the other. -/
def AllocateAll (sm : sriovManager) (rqts : List AllocateRequest) : sriovManager :=
  rqts.foldl (fun s rqt => (Allocate s rqt).1) sm

/-- All the device IDs of an allocation record: the pods' allocated-device
lists taken together. -/
def recordedIDs (m : GoMap (List deviceEntry)) : List String :=
  m.flatMap (fun kv => kv.2.map deviceEntry.deviceID)

/-- All the device IDs a request names, over all its containers. -/
def requestedIDs (rqt : AllocateRequest) : List String :=
  rqt.ContainerRequests.flatMap ContainerAllocateRequest.DevicesIDs

end Sriovdp

/-! ## The kubelet API types used by pkg/resources and pkg/netdevice -/

namespace Pluginapi

/-- The type `pluginapi.Device`: `Topology` lists the NUMA node IDs, `none`
for the nil pointer. -/
structure Device where
  ID : String
  Health : String
  Topology : Option (List Int)
  deriving DecidableEq, Repr

/-- The type `pluginapi.DeviceSpec`. -/
structure DeviceSpec where
  ContainerPath : String
  HostPath : String
  Permissions : String
  deriving DecidableEq, Repr

/-- The type `pluginapi.Mount`. -/
structure Mount where
  ContainerPath : String
  HostPath : String
  ReadOnly : Bool
  deriving DecidableEq, Repr

/-- The constant `pluginapi.Healthy`. -/
def Healthy : String := "Healthy"

/-- The constant `pluginapi.Unhealthy`. -/
def Unhealthy : String := "Unhealthy"

end Pluginapi

/-! ## pkg/resources: the resource server -/

namespace Resources

open Pluginapi

/-- What `server.go` takes from outside the sources: the constant
`types.SockDir` and the Go library functions `filepath.Join` (of two
elements) and `strings.ToUpper`. -/
structure Lib where
  SockDir : String
  Join : String → String → String
  ToUpper : String → String

/-- The interface `types.ResourcePool`, as far as `server.go` calls it; the
maps are listed in the order a `range` visits them. -/
structure ResourcePool where
  GetResourceName : String
  GetDevices : GoMap Device
  GetDeviceFiles : GoMap String
  GetDeviceSpecs : GoMap String → List String → List DeviceSpec
  GetEnvs : List String → GoMap String
  GetMounts : List Mount

/-- A `*grpc.Server` instance, as far as the server drives it: `serving`
records that `Serve` was called on the instance (it stays set when the
instance is stopped), `stopped` that `Stop` was. -/
structure GrpcServer where
  serving : Bool
  stopped : Bool
  deriving DecidableEq, Repr

/-- The call `grpc.NewServer()`. -/
def GrpcServer.new : GrpcServer := { serving := false, stopped := false }

/-- The call `grpcServer.Stop()`. -/
def GrpcServer.Stop (g : GrpcServer) : GrpcServer := { serving := g.serving, stopped := true }

/-- The type `resourceServer`: `grpcServer` is `none` for the nil pointer, and
each channel is the list of the values sent on it and not yet received. -/
structure resourceServer where
  resourcePool : ResourcePool
  endPoint : String
  resourceNamePrefix : String
  grpcServer : Option GrpcServer
  termSignal : List Bool
  updateSignal : List Bool
  stopWatcher : List Bool
  restartSignal : List Bool
  checkIntervals : Int

/-- The function `newResourceServer`. -/
def newResourceServer (pfx suffix : String) (rp : ResourcePool) : resourceServer :=
  let sockName := rp.GetResourceName ++ "." ++ suffix
  { resourcePool := rp,
    endPoint := sockName,
    resourceNamePrefix := pfx,
    grpcServer := some GrpcServer.new,
    termSignal := [],
    updateSignal := [],
    stopWatcher := [],
    restartSignal := [],
    checkIntervals := 20 }

/-- The type `registerapi.PluginInfo`; `pluginType` is its field `Type`. -/
structure PluginInfo where
  pluginType : String
  Name : String
  Endpoint : String
  SupportedVersions : List String
  deriving DecidableEq, Repr

/-- The constant `registerapi.DevicePlugin`. -/
def DevicePlugin : String := "DevicePlugin"

/-- The method `resourceServer.GetInfo`: the response and the error. -/
def GetInfo (lib : Lib) (rs : resourceServer) : Option PluginInfo × Option String :=
  let pluginInfoResponse : PluginInfo :=
    { pluginType := DevicePlugin,
      Name := rs.resourceNamePrefix ++ "/" ++ rs.resourcePool.GetResourceName,
      Endpoint := lib.Join lib.SockDir rs.endPoint,
      SupportedVersions := ["v1alpha1", "v1beta1", "v1"] }
  (some pluginInfoResponse, none)

/-- The call `strings.Replace(s, ".", "_", -1)`. -/
def replaceDots (s : String) : String :=
  String.mk (s.data.map (fun c => if c = '.' then '_' else c))

/-- The method `resourceServer.getEnvs`. -/
def getEnvs (lib : Lib) (rs : resourceServer) (deviceIDs : List String) : GoMap String :=
  let varPrefix := "PCIDEVICE"
  let resourceNamePrefix := replaceDots rs.resourceNamePrefix
  let envs := rs.resourcePool.GetEnvs deviceIDs
  envs.foldl
    (fun newEnvs kv =>
      mapSet newEnvs (lib.ToUpper (varPrefix ++ "_" ++ resourceNamePrefix ++ "_" ++ kv.1)) kv.2)
    []

/-- The type `pluginapi.ContainerAllocateRequest`. -/
structure ContainerAllocateRequest where
  DevicesIDs : List String
  deriving DecidableEq, Repr

/-- The type `pluginapi.AllocateRequest`. -/
structure AllocateRequest where
  ContainerRequests : List ContainerAllocateRequest
  deriving DecidableEq, Repr

/-- The type `pluginapi.ContainerAllocateResponse`. -/
structure ContainerAllocateResponse where
  Envs : GoMap String
  Mounts : List Mount
  Devices : List DeviceSpec
  deriving DecidableEq, Repr

/-- The type `pluginapi.AllocateResponse`. -/
structure AllocateResponse where
  ContainerResponses : List ContainerAllocateResponse
  deriving DecidableEq, Repr

/-- The method `resourceServer.Allocate`: the response and the error. -/
def Allocate (lib : Lib) (rs : resourceServer) (rqt : AllocateRequest) :
    Option AllocateResponse × Option String :=
  let resp : List ContainerAllocateResponse :=
    rqt.ContainerRequests.foldl
      (fun resp container =>
        resp ++
          [{ Devices := rs.resourcePool.GetDeviceSpecs rs.resourcePool.GetDeviceFiles
                container.DevicesIDs,
             Envs := getEnvs lib rs container.DevicesIDs,
             Mounts := rs.resourcePool.GetMounts }])
      []
  (some { ContainerResponses := resp }, none)

/-- The type `pluginapi.ListAndWatchResponse`. -/
structure ListAndWatchResponse where
  Devices : List Device
  deriving DecidableEq, Repr

/-- The case of the `select` of `ListAndWatch` that fires: a receive on
`termSignal` or a receive on `updateSignal`. -/
inductive Signal where
  | term
  | update
  deriving DecidableEq, Repr

/-- How a run of `ListAndWatch` ends: still waiting in the `select`, returned
with an error value (`none` for nil), or stopped by a nil-pointer panic. -/
inductive Outcome where
  | waiting
  | returned (err : Option String)
  | panicked
  deriving DecidableEq, Repr

/-- A run of `ListAndWatch`: the responses sent on the stream, oldest first,
and how the run ends. -/
structure WatchRun where
  sent : List ListAndWatchResponse
  outcome : Outcome
  deriving DecidableEq, Repr

/-- The loops `for _, dev := range rs.resourcePool.GetDevices()` of
`ListAndWatch`: the devices in the order the range visits them. -/
def collectDevices (devices : GoMap Device) : List Device :=
  devices.foldl (fun devs kv => devs ++ [kv.2]) []

/-- The event loop of `ListAndWatch`. The list holds the signals the `select`
receives, in order; `k` counts the calls of `GetDevices` and of `stream.Send`
made so far. -/
def watchLoop (getDevices : Nat → GoMap Device) (sendErr : Nat → Option String) :
    List Signal → Nat → List ListAndWatchResponse → WatchRun
  | [], _, sent => { sent := sent, outcome := Outcome.waiting }
  | Signal.term :: _, _, sent => { sent := sent, outcome := Outcome.returned none }
  | Signal.update :: rest, k, sent =>
    let newDevs := collectDevices (getDevices k)
    match sendErr k with
    | some err => { sent := sent, outcome := Outcome.returned (some err) }
    | none => watchLoop getDevices sendErr rest (k + 1) (sent ++ [{ Devices := newDevs }])

/-- The method `resourceServer.ListAndWatch`. `getDevices k` is what the k-th
call of the pool's `GetDevices` by this handler returns (from 0), `sendErr k`
is what the k-th `stream.Send` returns (`none` for nil), and `signals` are the
signals the handler receives, in order. The result is the server after the
run and the run. -/
def ListAndWatch (rs : resourceServer) (getDevices : Nat → GoMap Device)
    (sendErr : Nat → Option String) (signals : List Signal) : resourceServer × WatchRun :=
  let devs := collectDevices (getDevices 0)
  match sendErr 0 with
  | some err =>
    match rs.grpcServer with
    | none => (rs, { sent := [], outcome := Outcome.panicked })
    | some g =>
      ({ rs with grpcServer := some g.Stop }, { sent := [], outcome := Outcome.returned (some err) })
  | none => (rs, watchLoop getDevices sendErr signals 1 [{ Devices := devs }])

/-- A library for the examples: the socket directory of the kubelet plugin
registry, a join of two clean path elements, and the upper case of ASCII. -/
def exampleLib : Lib :=
  { SockDir := "/var/lib/kubelet/plugins_registry",
    Join := fun dir file => dir ++ "/" ++ file,
    ToUpper := fun s => String.mk (s.data.map Char.toUpper) }

/-- A pool for the examples: the healthy device `0000:02:00.0` and the
unhealthy device `0000:02:00.1`; specs and environment skip the IDs the pool
does not hold. -/
def examplePool : ResourcePool :=
  { GetResourceName := "intel_sriov_vfio",
    GetDevices :=
      [("0000:02:00.0", { ID := "0000:02:00.0", Health := Healthy, Topology := none }),
       ("0000:02:00.1", { ID := "0000:02:00.1", Health := Unhealthy, Topology := none })],
    GetDeviceFiles := [],
    GetDeviceSpecs := fun _ ids =>
      (ids.filter (fun id => id = "0000:02:00.0" ∨ id = "0000:02:00.1")).map (fun id =>
        { ContainerPath := "/dev/vfio/" ++ id, HostPath := "/dev/vfio/" ++ id,
          Permissions := "mrw" }),
    GetEnvs := fun ids =>
      (ids.filter (fun id => id = "0000:02:00.0" ∨ id = "0000:02:00.1")).map (fun id =>
        (id, id)),
    GetMounts := [] }

end Resources

/-! ## pkg/netdevice: the pool of network devices -/

namespace Netdevice

open Pluginapi

/-- The interface `types.RdmaSpec`, as far as `GetDeviceSpecs` calls it. -/
structure RdmaSpec where
  IsRdma : Bool
  GetRdmaDeviceSpec : List DeviceSpec
  deriving DecidableEq, Repr

/-- The interface `types.PciNetDevice`, as far as `GetDeviceSpecs` calls it. -/
structure PciNetDevice where
  GetDeviceSpecs : List DeviceSpec
  GetRdmaSpec : RdmaSpec
  deriving DecidableEq, Repr

/-- A value of the interface `types.PciDevice`: a network device, or a device
of another dynamic type, on which the type assertion
`dev.(types.PciNetDevice)` panics. -/
inductive PciDevice where
  | netDevice (d : PciNetDevice)
  | other
  deriving DecidableEq, Repr

/-- The type `types.NetDeviceSelectors`, as far as `GetDeviceSpecs` reads it. -/
structure NetDeviceSelectors where
  IsRdma : Bool
  deriving DecidableEq, Repr

/-- The type `netResourcePool`: `devicePool` is what `GetDevicePool()` of the
embedded `ResourcePoolImpl` returns and `DeviceSpecExist` is its method of
that name (both outside the sources); `selectors` is `none` for the nil
pointer `NewNetResourcePool` stores when the selector object has another
type. -/
structure netResourcePool where
  devicePool : GoMap PciDevice
  DeviceSpecExist : List DeviceSpec → DeviceSpec → Bool
  selectors : Option NetDeviceSelectors

/-- The inner loop of `GetDeviceSpecs`: appends each of `newSpecs` that
`DeviceSpecExist` does not find in the list built so far. -/
def appendNewSpecs (exist : List DeviceSpec → DeviceSpec → Bool) :
    List DeviceSpec → List DeviceSpec → List DeviceSpec
  | devSpecs, [] => devSpecs
  | devSpecs, ds :: rest =>
    if !exist devSpecs ds then appendNewSpecs exist (devSpecs ++ [ds]) rest
    else appendNewSpecs exist devSpecs rest

/-- The outer loop of `GetDeviceSpecs`; `none` is a run-time panic (a failed
type assertion, or the nil `selectors` pointer). -/
def getDeviceSpecsLoop (rp : netResourcePool) :
    List String → List DeviceSpec → Option (List DeviceSpec)
  | [], devSpecs => some devSpecs
  | id :: ids, devSpecs =>
    match mapGet rp.devicePool id with
    | none => getDeviceSpecsLoop rp ids devSpecs
    | some PciDevice.other => none
    | some (PciDevice.netDevice netDev) =>
      let newSpecs := netDev.GetDeviceSpecs
      let rdmaSpec := netDev.GetRdmaSpec
      match rp.selectors with
      | none => none
      | some selectors =>
        let newSpecs :=
          if selectors.IsRdma then
            if rdmaSpec.IsRdma then newSpecs ++ rdmaSpec.GetRdmaDeviceSpec else newSpecs
          else newSpecs
        getDeviceSpecsLoop rp ids (appendNewSpecs rp.DeviceSpecExist devSpecs newSpecs)

/-- The method `netResourcePool.GetDeviceSpecs`. -/
def GetDeviceSpecs (rp : netResourcePool) (deviceIDs : List String) : Option (List DeviceSpec) :=
  getDeviceSpecsLoop rp deviceIDs []

/-- The specs a requested device contributes, in the words of the
specification: its driver-specific specs, followed by its RDMA device specs
if and only if the selector requires RDMA and the device's RDMA spec reports
RDMA capability. -/
def specifiedSpecs (selectors : NetDeviceSelectors) (netDev : PciNetDevice) : List DeviceSpec :=
  netDev.GetDeviceSpecs ++
    (if selectors.IsRdma = true ∧ netDev.GetRdmaSpec.IsRdma = true then
      netDev.GetRdmaSpec.GetRdmaDeviceSpec
    else [])

/-- The network devices of the pool that a request names, in request order
(an ID the pool does not hold names none). -/
def requestedNetDevices (rp : netResourcePool) (deviceIDs : List String) : List PciNetDevice :=
  deviceIDs.filterMap (fun id =>
    match mapGet rp.devicePool id with
    | some (PciDevice.netDevice d) => some d
    | _ => none)

/-- The result of `GetDeviceSpecs` in the words of the specification: the
specs the requested devices of the pool contribute, in request order, each
merged into the list unless `DeviceSpecExist` finds it there. -/
def specifiedDeviceSpecs (rp : netResourcePool) (selectors : NetDeviceSelectors)
    (deviceIDs : List String) : List DeviceSpec :=
  appendNewSpecs rp.DeviceSpecExist []
    ((requestedNetDevices rp deviceIDs).flatMap (specifiedSpecs selectors))

/-- A pool for the examples, whose selector requires RDMA: `0000:03:00.0` has
RDMA devices, `0000:03:00.1` has none, both expose the shared VFIO control
node, and `DeviceSpecExist` compares host paths. -/
def examplePool : netResourcePool :=
  { devicePool :=
      [("0000:03:00.0", PciDevice.netDevice
          { GetDeviceSpecs := [⟨"/dev/vfio/vfio", "/dev/vfio/vfio", "mrw"⟩,
                               ⟨"/dev/vfio/7", "/dev/vfio/7", "mrw"⟩],
            GetRdmaSpec :=
              { IsRdma := true,
                GetRdmaDeviceSpec := [⟨"/dev/infiniband/uverbs0", "/dev/infiniband/uverbs0", "rwm"⟩] } }),
       ("0000:03:00.1", PciDevice.netDevice
          { GetDeviceSpecs := [⟨"/dev/vfio/vfio", "/dev/vfio/vfio", "mrw"⟩,
                               ⟨"/dev/vfio/8", "/dev/vfio/8", "mrw"⟩],
            GetRdmaSpec :=
              { IsRdma := false,
                GetRdmaDeviceSpec := [⟨"/dev/infiniband/uverbs1", "/dev/infiniband/uverbs1", "rwm"⟩] } })],
    DeviceSpecExist := fun specs newSpec => specs.any (fun sp => sp.HostPath = newSpec.HostPath),
    selectors := some { IsRdma := true } }

end Netdevice

/-! ## The host: the socket directory -/

/-- What `os.Remove` returns: nil, an error for which `os.IsNotExist` holds,
or another error. -/
inductive RemoveResult where
  | removed
  | notExist
  | failed (err : String)
  deriving DecidableEq, Repr

/-- The call `os.Remove(path)` on a directory holding the files `files`:
`denied` is the error of a host that refuses the removal (`none` when it
does not refuse). -/
def osRemove (files : List String) (path : String) (denied : Option String) :
    List String × RemoveResult :=
  match denied with
  | some err => (files, RemoveResult.failed err)
  | none =>
    if path ∈ files then (files.filter (fun f => f ≠ path), RemoveResult.removed)
    else (files, RemoveResult.notExist)

/-- How a call ends: it returns an error value (`none` for nil), it panics,
or it ends the process through `glog.Fatalf`. -/
inductive CallResult where
  | returned (err : Option String)
  | panicked
  | fatal (msg : String)
  deriving DecidableEq, Repr

/-! ## pkg/resources: the life cycle of the resource server

A send `ch <- v` puts the value at the end of the channel's list of values
sent and not yet received, where the sender waits for a receiver (on the
buffered `termSignal`, only when a value is there already); a receive takes
the first value of the list. -/

namespace Resources

open Pluginapi

/-- The type `registerapi.RegistrationStatus`. -/
structure RegistrationStatus where
  PluginRegistered : Bool
  Error : String
  deriving DecidableEq, Repr

/-- The type `registerapi.RegistrationStatusResponse`. -/
structure RegistrationStatusResponse where
  deriving DecidableEq, Repr

/-- The path `filepath.Join(types.SockDir, rs.endPoint)` of the socket. -/
def sockPath (lib : Lib) (rs : resourceServer) : String :=
  lib.Join lib.SockDir rs.endPoint

/-- The method `resourceServer.cleanUp`: the socket directory after the call
and the error. -/
def cleanUp (lib : Lib) (rs : resourceServer) (files : List String) (denied : Option String) :
    List String × Option String :=
  match osRemove files (sockPath lib rs) denied with
  | (files1, RemoveResult.failed err) => (files1, some err)
  | (files1, _) => (files1, none)

/-- What the host answers during one call of `Start`: whether it refuses the
removal of the stale socket, the error of `net.Listen` on a free path and
the error of the self-dial `grpc.Dial` (`none` for success). -/
structure StartEnv where
  removeDenied : Option String
  listenErr : Option String
  dialErr : Option String
  deriving DecidableEq, Repr

/-- The method `resourceServer.Start`: the server and the socket directory
after the call, and how the call ends. `net.Listen` fails on a path that
exists and creates the socket file otherwise. Registering the services
panics on a nil server and ends the process on an instance on which `Serve`
was called before (gRPC refuses `RegisterService` after `Serve`). On a
stopped instance `Serve` closes the listener, which removes the socket file,
and the self-dial cannot succeed; on a fresh instance the listener stays
open, also when the self-dial fails. The probe loop that `triggerUpdate`
starts is not part of the state. -/
def Start (lib : Lib) (rs : resourceServer) (files : List String) (env : StartEnv) :
    resourceServer × List String × CallResult :=
  let files1 := (cleanUp lib rs files env.removeDenied).1
  let path := sockPath lib rs
  if path ∈ files1 then
    (rs, files1,
      CallResult.returned (some ("listen unix " ++ path ++ ": bind: address already in use")))
  else
    match env.listenErr with
    | some err => (rs, files1, CallResult.returned (some err))
    | none =>
      let files2 := files1 ++ [path]
      match rs.grpcServer with
      | none => (rs, files2, CallResult.panicked)
      | some g =>
        if g.serving then
          (rs, files2, CallResult.fatal "grpc: Server.RegisterService after Server.Serve")
        else
          let rs1 := { rs with grpcServer := some { g with serving := true } }
          if g.stopped then
            (rs1, files1,
              CallResult.returned (some (env.dialErr.getD "context deadline exceeded")))
          else
            match env.dialErr with
            | some err => (rs1, files2, CallResult.returned (some err))
            | none => (rs1, files2, CallResult.returned none)

/-- The method `resourceServer.restart`. -/
def restart (lib : Lib) (rs : resourceServer) (files : List String) (env : StartEnv) :
    resourceServer × List String × CallResult :=
  match rs.grpcServer with
  | none =>
    (rs, files,
      CallResult.returned
        (some ("grpc server instance not found for " ++ rs.resourcePool.GetResourceName)))
  | some _ =>
    let rs1 := { rs with grpcServer := none }
    let rs2 := { rs1 with termSignal := rs1.termSignal ++ [true] }
    let rs3 := { rs2 with grpcServer := some GrpcServer.new }
    Start lib rs3 files env

/-- The method `resourceServer.Stop`: the server and the socket directory
after the call, and the error. On a server with an instance the call gets to
its return once its sends on `termSignal` and `stopWatcher` are received; on
a nil instance it sends nothing. -/
def Stop (lib : Lib) (rs : resourceServer) (files : List String) (denied : Option String) :
    resourceServer × List String × Option String :=
  match rs.grpcServer with
  | none => (rs, files, none)
  | some _ =>
    let rs1 := { rs with termSignal := rs.termSignal ++ [true] }
    let rs2 := { rs1 with stopWatcher := rs1.stopWatcher ++ [true] }
    let rs3 := { rs2 with grpcServer := none }
    match cleanUp lib rs3 files denied with
    | (files1, err) => (rs3, files1, err)

/-- The case of the `select` of `Watch` that fires. -/
inductive WatchCase where
  | stop
  | restart
  deriving DecidableEq, Repr

/-- How a call of `Watch` stands: still waiting in its `select`, or over. -/
inductive WatchOutcome where
  | waiting
  | ended (result : CallResult)
  deriving DecidableEq, Repr

/-- A call of `Watch`: the server and the socket directory after it, the
number of restarts it performed and how it stands. -/
structure WatchRun2 where
  rs : resourceServer
  files : List String
  restarts : Nat
  outcome : WatchOutcome

/-- The method `resourceServer.Watch`. `pick` is the case the `select` takes
when both channels hold a value. -/
def Watch (lib : Lib) (rs : resourceServer) (files : List String) (env : StartEnv)
    (pick : WatchCase) : WatchRun2 :=
  let onStop (_stop : Bool) (rest : List Bool) : WatchRun2 :=
    { rs := { rs with stopWatcher := rest }, files := files, restarts := 0,
      outcome := WatchOutcome.ended (CallResult.returned none) }
  let onRestart (restartRequested : Bool) (rest : List Bool) : WatchRun2 :=
    let rs1 := { rs with restartSignal := rest }
    if restartRequested then
      match restart lib rs1 files env with
      | (rs2, files2, CallResult.returned none) =>
        { rs := rs2, files := files2, restarts := 1,
          outcome := WatchOutcome.ended (CallResult.returned none) }
      | (rs2, files2, CallResult.returned (some err)) =>
        { rs := rs2, files := files2, restarts := 0,
          outcome := WatchOutcome.ended (CallResult.fatal ("unable to restart server " ++ err)) }
      | (rs2, files2, other) =>
        { rs := rs2, files := files2, restarts := 0, outcome := WatchOutcome.ended other }
    else
      { rs := rs1, files := files, restarts := 0,
        outcome := WatchOutcome.ended (CallResult.returned none) }
  match rs.stopWatcher, rs.restartSignal with
  | [], [] => { rs := rs, files := files, restarts := 0, outcome := WatchOutcome.waiting }
  | stop :: rest, [] => onStop stop rest
  | [], restartRequested :: rest => onRestart restartRequested rest
  | stop :: srest, restartRequested :: rrest =>
    match pick with
    | WatchCase.stop => onStop stop srest
    | WatchCase.restart => onRestart restartRequested rrest

/-- How a call of `NotifyRegistrationStatus` stands: it has returned its
response and error, or it is blocked in its send on the unbuffered
`restartSignal` because no receiver takes the value. -/
inductive NotifyResult where
  | returned (resp : Option RegistrationStatusResponse) (err : Option String)
  | blocked
  deriving DecidableEq, Repr

/-- The method `resourceServer.NotifyRegistrationStatus`: the server once the
handler has sent (or has nothing to send), and how the call stands.
`watcher` is how the call of `Watch`, the only receiver of `restartSignal`,
stands when the handler sends: a watcher waiting in its `select` receives
the value and the handler goes on to its return; a watcher that is over
never receives it, and the handler stays blocked in the send. -/
def NotifyRegistrationStatus (rs : resourceServer) (regstat : RegistrationStatus)
    (watcher : WatchOutcome) : resourceServer × NotifyResult :=
  if regstat.PluginRegistered then (rs, NotifyResult.returned (some {}) none)
  else
    let rs1 := { rs with restartSignal := rs.restartSignal ++ [true] }
    match watcher with
    | WatchOutcome.waiting => (rs1, NotifyResult.returned (some {}) none)
    | WatchOutcome.ended _ => (rs1, NotifyResult.blocked)

/-- The `select` of `ListAndWatch` on the values waiting on `termSignal` and
`updateSignal`: the case that fires, which is `pick` when both channels hold a
value, and `none` while both are empty. -/
def selectSignal (term upd : List Bool) (pick : Signal) : Option Signal :=
  match term, upd with
  | [], [] => none
  | _ :: _, [] => some Signal.term
  | [], _ :: _ => some Signal.update
  | _ :: _, _ :: _ => some pick

/-- The event loop of `ListAndWatch` on the channels themselves: `term` and
`upd` are the values waiting on `termSignal` and `updateSignal`, and `pick k`
is the case the `select` takes, after `k` sends, when both channels hold a
value. The result is the run and the values left on the two channels. -/
def watchPending (getDevices : Nat → GoMap Device) (sendErr : Nat → Option String)
    (pick : Nat → Signal) (term : List Bool) :
    List Bool → Nat → List ListAndWatchResponse → WatchRun × List Bool × List Bool
  | [], _, sent =>
    match term with
    | [] => ({ sent := sent, outcome := Outcome.waiting }, [], [])
    | _ :: rest => ({ sent := sent, outcome := Outcome.returned none }, rest, [])
  | u :: upd, k, sent =>
    match selectSignal term (u :: upd) (pick k) with
    | some Signal.update =>
      match sendErr k with
      | some err => ({ sent := sent, outcome := Outcome.returned (some err) }, term, upd)
      | none =>
        watchPending getDevices sendErr pick term upd (k + 1)
          (sent ++ [{ Devices := collectDevices (getDevices k) }])
    | _ => ({ sent := sent, outcome := Outcome.returned none }, term.tail, u :: upd)

/-- The number of update signals the `select` of `ListAndWatch` takes before
it takes a waiting terminate signal: `upd` holds the update signals waiting
and `pick k` is the case the `select` takes after `k` sends. -/
def updatesTaken (pick : Nat → Signal) : Nat → List Bool → Nat
  | _, [] => 0
  | k, _ :: upd =>
    match pick k with
    | Signal.term => 0
    | Signal.update => updatesTaken pick (k + 1) upd + 1

/-- The method `resourceServer.ListAndWatch`, run on the values waiting on the
server's channels when the handler reaches its `select`. -/
def ListAndWatchPending (rs : resourceServer) (getDevices : Nat → GoMap Device)
    (sendErr : Nat → Option String) (pick : Nat → Signal) : resourceServer × WatchRun :=
  let devs := collectDevices (getDevices 0)
  match sendErr 0 with
  | some err =>
    match rs.grpcServer with
    | none => (rs, { sent := [], outcome := Outcome.panicked })
    | some g =>
      ({ rs with grpcServer := some g.Stop }, { sent := [], outcome := Outcome.returned (some err) })
  | none =>
    match watchPending getDevices sendErr pick rs.termSignal rs.updateSignal 1
        [{ Devices := devs }] with
    | (run, term, upd) => ({ rs with termSignal := term, updateSignal := upd }, run)

/-- A server for the examples, serving: the server `newResourceServer`
builds for the example pool, after a successful `Start` on an empty socket
directory. -/
def exampleServing : resourceServer :=
  (Start exampleLib (newResourceServer "intel.com" "sock" examplePool) []
    { removeDenied := none, listenErr := none, dialErr := none }).1

end Resources

/-! ## cmd/sriovdp: discovery, the CNI endpoint and the life cycle of the manager -/

namespace Sriovdp

/-- What `os.Lstat` returns: an error for which `os.IsNotExist` holds, another
error, or the mode of the file. -/
inductive LstatResult where
  | notExist
  | failed (err : String)
  | info (regular : Bool) (symlink : Bool)
  deriving DecidableEq, Repr

/-- What the manager takes from outside the sources: the constant
`pluginapi.DevicePluginPath`, the Go library functions `filepath.Join`,
`bytes.TrimSpace` and `strconv.Atoi`, and the host files as `ioutil.ReadDir`
(the names of the entries), `os.Lstat`, `ioutil.ReadFile` and `os.Readlink`
show them; a pair holds the value and the error (`none` for nil). -/
structure Host where
  DevicePluginPath : String
  Join : List String → String
  TrimSpace : String → String
  Atoi : String → Int × Option String
  ReadDir : String → List String × Option String
  Lstat : String → LstatResult
  ReadFile : String → String × Option String
  Readlink : String → String × Option String

/-- The constant `netDirectory`. -/
def netDirectory : String := "/sys/class/net/"

/-- The constant `sriovCapable`. -/
def sriovCapable : String := "/sriov_totalvfs"

/-- The constant `sriovConfigured`. -/
def sriovConfigured : String := "/sriov_numvfs"

/-- The loop of `getSriovPfList` over the network devices: `none` is the
panic of `f.Mode()` on the nil `FileInfo` of a failed `os.Lstat`. -/
def sriovPfLoop (host : Host) : List String → List String → Option (List String)
  | [], sriovNetDevices => some sriovNetDevices
  | dev :: rest, sriovNetDevices =>
    let sriovFilePath := host.Join [netDirectory, dev, "device", "sriov_numvfs"]
    match host.Lstat sriovFilePath with
    | LstatResult.notExist => sriovPfLoop host rest sriovNetDevices
    | LstatResult.failed _ => none
    | LstatResult.info regular _ =>
      if regular then sriovPfLoop host rest (sriovNetDevices ++ [dev])
      else sriovPfLoop host rest sriovNetDevices

/-- The function `getSriovPfList`: the names and how the call ends. -/
def getSriovPfList (host : Host) : List String × CallResult :=
  match host.ReadDir netDirectory with
  | (_, some err) => ([], CallResult.returned (some err))
  | (netDevices, none) =>
    if netDevices.length < 1 then ([], CallResult.returned none)
    else
      match sriovPfLoop host netDevices [] with
      | none => ([], CallResult.panicked)
      | some sriovNetDevices => (sriovNetDevices, CallResult.returned none)

/-- The conversion `int32(vf)` of a Go `int`. -/
def toInt32 (vf : Int) : Int :=
  (vf + 2147483648) % 4294967296 - 2147483648

/-- The loop of `discoverNetworks` over the virtual functions of one device:
the manager, and how the call ends when the loop ends it (`none` when the
loop runs to its end). -/
def discoverVFs (host : Host) (dev : String) :
    List Nat → sriovManager → sriovManager × Option CallResult
  | [], sm => (sm, none)
  | vf :: rest, sm =>
    let vfDir := "/sys/class/net/" ++ dev ++ "/device/virtfn" ++ toString vf
    match host.Lstat vfDir with
    | LstatResult.notExist =>
      (sm, some (CallResult.returned (some ("lstat " ++ vfDir ++ ": no such file or directory"))))
    | LstatResult.failed err => (sm, some (CallResult.returned (some err)))
    | LstatResult.info _ symlink =>
      if !symlink then
        (sm, some (CallResult.returned (some
          ("Error. No symbolic link between virtual function and PCI - Device: " ++ dev ++
            ", VF: " ++ toString vf))))
      else
        match host.Readlink vfDir with
        | (_, some err) => (sm, some (CallResult.returned (some err)))
        | (pciInfo, none) =>
          if pciInfo.utf8ByteSize < 3 then (sm, some CallResult.panicked)
          else
            let pciAddr := String.mk (pciInfo.data.drop 3)
            let devName := pciAddr
            discoverVFs host dev rest
              { sm with
                devices := mapSet sm.devices devName { ID := devName, Health := Healthy },
                managedDevices := mapSet sm.managedDevices devName
                  { Pciaddr := pciAddr, Vfid := toInt32 vf, Pfname := dev } }

/-- The loop of `discoverNetworks` over the SR-IOV capable devices. -/
def discoverDevices (host : Host) : List String → sriovManager → sriovManager × CallResult
  | [], sm => (sm, CallResult.returned none)
  | dev :: rest, sm =>
    let sriovcapablepath := host.Join [netDirectory, dev, "device", sriovCapable]
    match host.ReadFile sriovcapablepath with
    | (_, some err) => (sm, CallResult.returned (some err))
    | (vfs, none) =>
      let totalvfs := host.TrimSpace vfs
      match host.Atoi totalvfs with
      | (_, some err) => (sm, CallResult.returned (some err))
      | (numvfs, none) =>
        if numvfs > 0 then
          let sriovconfiguredpath := netDirectory ++ dev ++ "/device" ++ sriovConfigured
          match host.ReadFile sriovconfiguredpath with
          | (_, some err) => (sm, CallResult.returned (some err))
          | (vfs2, none) =>
            let configuredVFs := host.TrimSpace vfs2
            match host.Atoi configuredVFs with
            | (_, some err) => (sm, CallResult.returned (some err))
            | (numconfiguredvfs, none) =>
              match discoverVFs host dev (List.range numconfiguredvfs.toNat) sm with
              | (sm1, some result) => (sm1, result)
              | (sm1, none) => discoverDevices host rest sm1
        else discoverDevices host rest sm

/-- The method `sriovManager.discoverNetworks`: the manager after the call and
how the call ends. -/
def discoverNetworks (host : Host) (sm : sriovManager) : sriovManager × CallResult :=
  match getSriovPfList host with
  | (_, CallResult.returned (some err)) => (sm, CallResult.returned (some err))
  | (pfList, CallResult.returned none) =>
    if pfList.length < 1 then
      (sm, CallResult.returned (some "Error. No SRIOV network device found"))
    else discoverDevices host pfList sm
  | (_, other) => (sm, other)

/-- The method `sriovManager.cleanup`: the socket directory after the call and
the error. -/
def cleanup (host : Host) (sm : sriovManager) (files : List String) (denied : Option String) :
    List String × Option String :=
  let pluginEndpoint := host.Join [host.DevicePluginPath, sm.socketFile]
  match osRemove files pluginEndpoint denied with
  | (files1, RemoveResult.failed err) => (files1, some err)
  | (files1, _) => (files1, none)

/-- The method `sriovManager.Stop`: the manager and the socket directory after
the call, and the error. -/
def Stop (host : Host) (sm : sriovManager) (files : List String) (denied : Option String) :
    sriovManager × List String × Option String :=
  match sm.grpcServer with
  | none => (sm, files, none)
  | some _ =>
    let sm1 := { sm with grpcServer := none }
    match cleanup host sm1 files denied with
    | (files1, err) => (sm1, files1, err)

/-- The loop of `GetDeviceInfo` over the devices of the pod: the ID of the
first entry that is not yet allocated and the entries with that entry
marked, or `none` when every entry is allocated. -/
def claimFirst : List deviceEntry → Option (String × List deviceEntry)
  | [] => none
  | p :: rest =>
    if !p.allocated then some (p.deviceID, { p with allocated := true } :: rest)
    else (claimFirst rest).map (fun r => (r.1, p :: r.2))

/-- The method `sriovManager.GetDeviceInfo`. `podUID` and `podErr` are what
the Kubernetes client returned for the pod of the request (its UID and the
error). The result is the manager after the call, the VF information
(`none` for nil) and the error. -/
def GetDeviceInfo (sm : sriovManager) (podUID : String) (podErr : Option String) :
    sriovManager × Option VfInformation × Option String :=
  let vfInfo : VfInformation := { Pciaddr := "", Vfid := 0, Pfname := "" }
  match podErr with
  | some err => (sm, some vfInfo, some err)
  | none =>
    match mapGet sm.allocatedDevices podUID with
    | none => (sm, some vfInfo, some ("no VF information found for Pod: " ++ podUID))
    | some podDevices =>
      match claimFirst podDevices with
      | some (deviceID, podDevices1) =>
        ({ sm with allocatedDevices := mapSet sm.allocatedDevices podUID podDevices1 },
          mapGet sm.managedDevices deviceID, none)
      | none => (sm, some vfInfo, some "all allocated VF(s) already assigned to CNI")

/-- The manager after `k` successive calls of `GetDeviceInfo` for one pod. -/
def GetDeviceInfoTimes (sm : sriovManager) (podUID : String) : Nat → sriovManager
  | 0 => sm
  | k + 1 => (GetDeviceInfo (GetDeviceInfoTimes sm podUID k) podUID none).1

/-- A join of path elements for the examples: the elements without their
leading and trailing slashes, separated by one slash, after the leading slash
of the first element if it has one. -/
def exampleJoin (elems : List String) : String :=
  let strip (e : String) : String :=
    String.mk ((e.data.dropWhile (fun c => c = '/')).reverse.dropWhile (fun c => c = '/')).reverse
  (if (elems.head?.bind (fun e => e.data.head?)) = some '/' then "/" else "") ++
    "/".intercalate ((elems.map strip).filter (fun e => e ≠ ""))

/-- A host for the examples: the only network device is the loopback
device, which has no `sriov_numvfs` file. -/
def exampleHost : Host :=
  { DevicePluginPath := "/var/lib/kubelet/device-plugins/",
    Join := exampleJoin,
    TrimSpace := fun s => s,
    Atoi := fun _ => (0, some "invalid syntax"),
    ReadDir := fun _ => (["lo"], none),
    Lstat := fun _ => LstatResult.notExist,
    ReadFile := fun _ => ("", some "no such file or directory"),
    Readlink := fun _ => ("", some "no such file or directory") }

end Sriovdp

/-! ## pkg/resources: the VFIO info provider -/

namespace Resources

open Pluginapi

/-- Modelled from the spec: the method `GetDeviceSpecs` of the VFIO info
provider (`pkg/resources/vfioResource.go` is not among the sources, only its
test is). The provider returns the device node of the IOMMU group of the PCI
address, `/dev/vfio/<group>`, when the address resolves to a group, and the
shared control node `/dev/vfio/vfio`; each node is exposed under its host
path with the permissions `mrw`. `iommuGroup` is what the host file system
resolves a PCI address to (`none` when it resolves to no group). -/
def vfioGetDeviceSpecs (iommuGroup : String → Option Nat) (pciAddr : String) : List DeviceSpec :=
  (match iommuGroup pciAddr with
    | some g =>
      [{ HostPath := "/dev/vfio/" ++ toString g, ContainerPath := "/dev/vfio/" ++ toString g,
         Permissions := "mrw" }]
    | none => []) ++
  [{ HostPath := "/dev/vfio/vfio", ContainerPath := "/dev/vfio/vfio", Permissions := "mrw" }]

end Resources

/-! ## pkg/features: the feature gate -/

namespace Features

/-- The type `featureSpec`; `Maturity` is the string of its `maturity`. -/
structure featureSpec where
  Default : Bool
  Maturity : String
  deriving DecidableEq, Repr

/-- The type `featureGate`; a `feature` is its string. -/
structure featureGate where
  knownFeatures : GoMap featureSpec
  enabled : GoMap Bool
  deriving DecidableEq, Repr

/-- The map `defaultSriovDpFeatureGates`. -/
def defaultSriovDpFeatureGates : GoMap featureSpec :=
  [("alphaFeature", { Default := false, Maturity := "ALPHA" }),
   ("betaFeature", { Default := true, Maturity := "BETA" }),
   ("gaFeature", { Default := true, Maturity := "GA" }),
   ("deprecatedFeature", { Default := false, Maturity := "DEPRECATED" })]

/-- The function `newFeatureGate`, when no feature gate exists yet. -/
def newFeatureGate : featureGate :=
  let knownFeatures := defaultSriovDpFeatureGates.foldl (fun m kv => mapSet m kv.1 kv.2) []
  { knownFeatures := knownFeatures,
    enabled := knownFeatures.foldl (fun m kv => mapSet m kv.1 kv.2.Default) [] }

/-- The method `featureGate.Enabled`, on the feature gate that is the
package's `FeatureGate`. -/
def Enabled (fg : featureGate) (f : String) : Bool :=
  (mapGet fg.enabled f).getD false

/-- The method `featureGate.isFeatureSupported`. -/
def isFeatureSupported (fg : featureGate) (f : String) : Bool :=
  (mapGet fg.knownFeatures f).isSome

/-- The method `featureGate.set`: the feature gate after the call and the
error. -/
def set (fg : featureGate) (f : String) (status : Bool) : featureGate × Option String :=
  if !isFeatureSupported fg f then (fg, some ("Feature " ++ f ++ " is not supported"))
  else ({ fg with enabled := mapSet fg.enabled f status }, none)

/-- The method `featureGate.SetFromMap`; the map is listed in the order the
`range` visits it. -/
def SetFromMap (fg : featureGate) : GoMap Bool → featureGate × Option String
  | [] => (fg, none)
  | (k, v) :: rest =>
    match set fg k v with
    | (fg1, some err) => (fg1, some err)
    | (fg1, none) => SetFromMap fg1 rest

/-- The pieces of a list of characters between the occurrences of `sep`. -/
def splitChars (sep : Char) : List Char → List (List Char)
  | [] => [[]]
  | c :: cs =>
    if c = sep then [] :: splitChars sep cs
    else
      match splitChars sep cs with
      | [] => [[c]]
      | seg :: segs => (c :: seg) :: segs

/-- The call `strings.Split(s, sep)` for a separator of one character. -/
def stringsSplit (s : String) (sep : Char) : List String :=
  (splitChars sep s.data).map String.mk

/-- The function `strconv.ParseBool`: the value and the error (whose text
quotes the input without escaping it). -/
def ParseBool (str : String) : Bool × Option String :=
  if str ∈ ["1", "t", "T", "TRUE", "true", "True"] then (true, none)
  else if str ∈ ["0", "f", "F", "FALSE", "false", "False"] then (false, none)
  else (false, some ("strconv.ParseBool: parsing \"" ++ str ++ "\": invalid syntax"))

/-- The loop of `SetFromString` over the segments of the string: the map
`featureMap` and the error. `trim` is the Go library function
`strings.TrimSpace`. -/
def parseSegments (trim : String → String) : List String → GoMap Bool → GoMap Bool × Option String
  | [], featureMap => (featureMap, none)
  | s :: rest, featureMap =>
    if s = "" then parseSegments trim rest featureMap
    else
      let splitted := stringsSplit s '='
      let key := trim (splitted.headD "")
      if splitted.length ≠ 2 then
        if splitted.length > 2 then (featureMap, some ("too many values for " ++ key))
        else (featureMap, some ("enablement value for " ++ key ++ " is missing"))
      else
        let val := trim (splitted.getD 1 "")
        match ParseBool val with
        | (_, some err) =>
          (featureMap,
            some ("error while processing " ++ key ++ "=" ++ val ++ ", err: " ++ err))
        | (boolVal, none) => parseSegments trim rest (mapSet featureMap key boolVal)

/-- The method `featureGate.SetFromString`: the feature gate after the call
and the error. `trim` is `strings.TrimSpace`, and `rangeOrder` lists a map in
the order the `range` of `SetFromMap` visits it. -/
def SetFromString (trim : String → String) (rangeOrder : GoMap Bool → GoMap Bool)
    (fg : featureGate) (value : String) : featureGate × Option String :=
  match parseSegments trim (stringsSplit value ',') [] with
  | (_, some err) => (fg, some err)
  | (featureMap, none) => SetFromMap fg (rangeOrder featureMap)

/-- A segment of the form the specification asks for: `key=value` with
exactly one `=`, a key that names a supported feature after trimming and a
value that `strconv.ParseBool` accepts after trimming. -/
def wellFormedSegment (trim : String → String) (fg : featureGate) (s : String) : Bool :=
  match stringsSplit s '=' with
  | [k, v] => isFeatureSupported fg (trim k) && (ParseBool (trim v)).2.isNone
  | _ => false

/-- The value of the last of the segments that names the feature `f`, `none`
when no segment names it. -/
def lastNamed (trim : String → String) : List String → String → Option Bool
  | [], _ => none
  | s :: rest, f =>
    match lastNamed trim rest f with
    | some b => some b
    | none =>
      match stringsSplit s '=' with
      | [k, v] => if trim k = f then some (ParseBool (trim v)).1 else none
      | _ => none

/-- A trim for the examples: without the leading and trailing blanks, tabs
and line ends. -/
def exampleTrim (s : String) : String :=
  let isSpace (c : Char) : Bool := c = ' ' ∨ c = '\t' ∨ c = '\n' ∨ c = '\r'
  String.mk ((s.data.dropWhile isSpace).reverse.dropWhile isSpace).reverse

end Features

/-! ## Theorems -/

/-! ### Go maps -/

theorem mapGet_mapSet_self {V : Type} (m : GoMap V) (k : String) (v : V) :
    mapGet (mapSet m k v) k = some v := by
  induction m with
  | nil => simp [mapSet, mapGet]
  | cons kv m ih =>
    obtain ⟨k', v'⟩ := kv
    by_cases h : k' = k
    · simp [mapSet, mapGet, h]
    · simp [mapSet, mapGet, h, ih]

theorem mapGet_mapSet_ne {V : Type} (m : GoMap V) (k k2 : String) (v : V) (h : k ≠ k2) :
    mapGet (mapSet m k v) k2 = mapGet m k2 := by
  induction m with
  | nil => simp [mapSet, mapGet, h]
  | cons kv m ih =>
    obtain ⟨k', v'⟩ := kv
    by_cases h1 : k' = k
    · subst h1; simp [mapSet, mapGet, h]
    · by_cases h2 : k' = k2
      · subst h2; simp [mapSet, mapGet, h1]
      · simp [mapSet, mapGet, h1, h2, ih]

namespace Sriovdp

/-- The inner loop of `Allocate` stops with an error exactly when one of the
IDs it is given is unusable. -/
theorem allocateIDs_err_iff (devices : GoMap Device) (podUID : String) (ids : List String)
    (st : AllocState) :
    (allocateIDs devices podUID ids st).2 ≠ none ↔ ∃ id ∈ ids, unusable devices id := by
  induction ids generalizing st with
  | nil => simp [allocateIDs]
  | cons id ids ih =>
    unfold allocateIDs
    cases h : mapGet devices id with
    | none =>
      simp only [ne_eq, reduceCtorEq, not_false_eq_true, List.mem_cons, exists_eq_or_imp, true_iff]
      exact Or.inl (Or.inl h)
    | some dev =>
      by_cases hh : dev.Health ≠ Healthy
      · simp only [hh, if_true, ne_eq, reduceCtorEq, not_false_eq_true, List.mem_cons,
          exists_eq_or_imp, true_iff]
        exact Or.inl (Or.inr ⟨dev, h, hh⟩)
      · simp only [hh, if_false, List.mem_cons, exists_eq_or_imp]
        rw [ih]
        constructor
        · intro hex; exact Or.inr hex
        · rintro (hbad | hex)
          · rcases hbad with h1 | ⟨d, hd, hne⟩
            · rw [h] at h1; cases h1
            · rw [h] at hd; cases hd; exact absurd hne hh
          · exact hex

/-- The outer loop of `Allocate` returns an error and no response when some
container names an unusable ID, and a response and no error otherwise. -/
theorem allocateContainers_result (devices : GoMap Device)
    (cs : List ContainerAllocateRequest) (st : AllocState)
    (resp : List ContainerAllocateResponse) :
    ((∃ c ∈ cs, ∃ id ∈ c.DevicesIDs, unusable devices id) →
        (allocateContainers devices cs st resp).2.1 = none ∧
        (allocateContainers devices cs st resp).2.2 ≠ none) ∧
    ((¬ ∃ c ∈ cs, ∃ id ∈ c.DevicesIDs, unusable devices id) →
        (allocateContainers devices cs st resp).2.1 ≠ none ∧
        (allocateContainers devices cs st resp).2.2 = none) := by
  induction cs generalizing st resp with
  | nil => simp [allocateContainers]
  | cons c cs ih =>
    have hin := allocateIDs_err_iff devices c.PodUID c.DevicesIDs st
    unfold allocateContainers
    rcases hres : allocateIDs devices c.PodUID c.DevicesIDs st with ⟨st1, _ | err⟩
    · rw [hres] at hin
      have hgood : ¬ ∃ id ∈ c.DevicesIDs, unusable devices id := by
        intro hex; exact (hin.mpr hex) rfl
      simp only [List.mem_cons, exists_eq_or_imp]
      constructor
      · rintro (hbad | hex)
        · exact absurd hbad hgood
        · exact (ih st1 _).1 hex
      · intro hno
        exact (ih st1 _).2 (fun hex => hno (Or.inr hex))
    · rw [hres] at hin
      have hbad : ∃ id ∈ c.DevicesIDs, unusable devices id := hin.mp (by simp)
      simp only [List.mem_cons, exists_eq_or_imp]
      constructor
      · intro _; simp
      · intro hno; exact absurd (Or.inl hbad) hno

/-- Claim C1. For every inventory and every allocation request,
`sriovManager.Allocate` returns an error and a nil response if and only if
some device ID requested in some container request is absent from the
inventory or present with a health other than `Healthy`; otherwise it returns
a response and no error. -/
theorem Allocate_error_iff_unusable (sm : sriovManager) (rqt : AllocateRequest) :
    (((Allocate sm rqt).2.2 ≠ none ∧ (Allocate sm rqt).2.1 = none) ↔
        ∃ c ∈ rqt.ContainerRequests, ∃ id ∈ c.DevicesIDs, unusable sm.devices id) ∧
    ((¬ ∃ c ∈ rqt.ContainerRequests, ∃ id ∈ c.DevicesIDs, unusable sm.devices id) →
        (Allocate sm rqt).2.1 ≠ none ∧ (Allocate sm rqt).2.2 = none) := by
  have h := allocateContainers_result sm.devices rqt.ContainerRequests
    { allocatedDevices := sm.allocatedDevices, pciAddrs := "" } []
  have e1 : (Allocate sm rqt).2.1 =
      (allocateContainers sm.devices rqt.ContainerRequests
        { allocatedDevices := sm.allocatedDevices, pciAddrs := "" } []).2.1.map
        (fun r => { ContainerResponses := r }) := rfl
  have e2 : (Allocate sm rqt).2.2 =
      (allocateContainers sm.devices rqt.ContainerRequests
        { allocatedDevices := sm.allocatedDevices, pciAddrs := "" } []).2.2 := rfl
  rw [e1, e2]
  refine ⟨⟨?_, ?_⟩, ?_⟩
  · rintro ⟨herr, _⟩
    by_contra hno
    exact herr (h.2 hno).2
  · intro hex
    obtain ⟨h1, h2⟩ := h.1 hex
    exact ⟨h2, by rw [h1]; rfl⟩
  · intro hno
    obtain ⟨h1, h2⟩ := h.2 hno
    refine ⟨?_, h2⟩
    intro hmap
    cases hc : (allocateContainers sm.devices rqt.ContainerRequests
        { allocatedDevices := sm.allocatedDevices, pciAddrs := "" } []).2.1 with
    | none => exact h1 hc
    | some r => rw [hc] at hmap; cases hmap

/-- Claim C2, the code at the failing input: the request names the healthy
device `0000:03:02.0` and then the unknown device `0000:03:02.1` for pod
`pod-1`; `Allocate` returns an error and a nil response, and the record of
`pod-1`, absent before the call, holds `0000:03:02.0` after it. -/
theorem Allocate_error_leaves_partial_record :
    (Allocate { emptySriovManager with devices := [("0000:03:02.0", ⟨"0000:03:02.0", Healthy⟩)] }
        ⟨[⟨"pod-1", "c0", ["0000:03:02.0", "0000:03:02.1"]⟩]⟩).2 =
      (none, some "Error. Invalid allocation request with non-existing device 0000:03:02.1") ∧
    mapGet emptySriovManager.allocatedDevices "pod-1" = none ∧
    mapGet (Allocate { emptySriovManager with devices := [("0000:03:02.0", ⟨"0000:03:02.0", Healthy⟩)] }
        ⟨[⟨"pod-1", "c0", ["0000:03:02.0", "0000:03:02.1"]⟩]⟩).1.allocatedDevices "pod-1" =
      some [⟨"0000:03:02.0", false⟩] := by
  decide

/-! ### Replaying the checkpoint -/

theorem restoreEntries_eq_map (ids : List String) :
    restoreEntries ids = ids.map (fun d => ({ deviceID := d, allocated := true } : deviceEntry)) := by
  have h : ∀ (acc : List deviceEntry),
      ids.foldl (fun dEntry d => dEntry ++ [({ deviceID := d, allocated := true } : deviceEntry)]) acc
        = acc ++ ids.map (fun d => ({ deviceID := d, allocated := true } : deviceEntry)) := by
    induction ids with
    | nil => intro acc; simp
    | cons d ids ih => intro acc; simp [List.foldl, ih]
  simpa [restoreEntries] using h []

/-- The loop of `restorePodMapping` leaves alone the record of a pod that the
checkpoint does not name. -/
theorem restoreLoop_get_absent (podEntries : List PodDevicesEntry) (sm : sriovManager)
    (uid : String) (h : uid ∉ podEntries.map PodDevicesEntry.PodUID) :
    mapGet (podEntries.foldl
      (fun s p =>
        { s with allocatedDevices := mapSet s.allocatedDevices p.PodUID (restoreEntries p.DeviceIDs) })
      sm).allocatedDevices uid = mapGet sm.allocatedDevices uid := by
  induction podEntries generalizing sm with
  | nil => rfl
  | cons q rest ih =>
    simp only [List.map_cons, List.mem_cons, not_or] at h
    simp only [List.foldl_cons]
    rw [ih _ h.2]
    exact mapGet_mapSet_ne _ _ _ _ (fun e => h.1 e.symm)

/-- The loop of `restorePodMapping` gives each pod of a checkpoint with
distinct pod UIDs the entries built from its device IDs. -/
theorem restoreLoop_get_present (podEntries : List PodDevicesEntry) (sm : sriovManager)
    (hd : (podEntries.map PodDevicesEntry.PodUID).Nodup) (p : PodDevicesEntry)
    (hp : p ∈ podEntries) :
    mapGet (podEntries.foldl
      (fun s p =>
        { s with allocatedDevices := mapSet s.allocatedDevices p.PodUID (restoreEntries p.DeviceIDs) })
      sm).allocatedDevices p.PodUID = some (restoreEntries p.DeviceIDs) := by
  induction podEntries generalizing sm with
  | nil => cases hp
  | cons q rest ih =>
    simp only [List.map_cons, List.nodup_cons] at hd
    simp only [List.foldl_cons]
    rcases List.mem_cons.mp hp with rfl | hin
    · rw [restoreLoop_get_absent rest _ _ hd.1]
      exact mapGet_mapSet_self _ _ _
    · exact ih _ hd.2 hin

/-- Claim C4. For every list of checkpointed pod entries with pairwise
distinct pod UIDs, after `restorePodMapping` on a fresh manager the record of
each checkpointed pod holds exactly that pod's checkpointed device IDs, in the
same order and with the same multiplicity, every entry with
`allocated = true`, and a pod absent from the checkpoint has no record. -/
theorem restorePodMapping_roundtrip (podEntries : List PodDevicesEntry)
    (hd : (podEntries.map PodDevicesEntry.PodUID).Nodup) :
    (∀ p ∈ podEntries,
      mapGet (restorePodMapping emptySriovManager podEntries none).allocatedDevices p.PodUID =
        some (p.DeviceIDs.map (fun d => ({ deviceID := d, allocated := true } : deviceEntry)))) ∧
    (∀ uid, uid ∉ podEntries.map PodDevicesEntry.PodUID →
      mapGet (restorePodMapping emptySriovManager podEntries none).allocatedDevices uid = none) := by
  constructor
  · intro p hp
    have hlen : podEntries.length > 0 := List.length_pos_of_mem hp
    simp only [restorePodMapping, hlen, and_self, if_true]
    rw [restoreLoop_get_present podEntries _ hd p hp, restoreEntries_eq_map]
  · intro uid hu
    unfold restorePodMapping
    split
    · rw [restoreLoop_get_absent podEntries _ uid hu]; rfl
    · rfl

/-- Claim C4 at a checkpoint of two pods, one of them holding the same device
twice. -/
theorem restorePodMapping_roundtrip_witness :
    ([⟨"pod-a", ["0000:03:02.0", "0000:03:02.1", "0000:03:02.0"]⟩, ⟨"pod-b", []⟩].map
        PodDevicesEntry.PodUID).Nodup ∧
    mapGet (restorePodMapping emptySriovManager
        [⟨"pod-a", ["0000:03:02.0", "0000:03:02.1", "0000:03:02.0"]⟩, ⟨"pod-b", []⟩]
        none).allocatedDevices "pod-a" =
      some [⟨"0000:03:02.0", true⟩, ⟨"0000:03:02.1", true⟩, ⟨"0000:03:02.0", true⟩] ∧
    mapGet (restorePodMapping emptySriovManager
        [⟨"pod-a", ["0000:03:02.0", "0000:03:02.1", "0000:03:02.0"]⟩, ⟨"pod-b", []⟩]
        none).allocatedDevices "pod-c" = none :=
  ⟨by decide,
    (restorePodMapping_roundtrip
      [⟨"pod-a", ["0000:03:02.0", "0000:03:02.1", "0000:03:02.0"]⟩, ⟨"pod-b", []⟩]
      (by decide)).1 ⟨"pod-a", ["0000:03:02.0", "0000:03:02.1", "0000:03:02.0"]⟩ (by simp),
    (restorePodMapping_roundtrip
      [⟨"pod-a", ["0000:03:02.0", "0000:03:02.1", "0000:03:02.0"]⟩, ⟨"pod-b", []⟩]
      (by decide)).2 "pod-c" (by decide)⟩

/-! ### Device IDs recorded by sequences of `Allocate` calls -/

/-- Appending one entry to the record of a pod adds that entry's device ID to
the recorded IDs, and nothing else. -/
theorem recordedIDs_append_entry (m : GoMap (List deviceEntry)) (k : String) (e : deviceEntry) :
    (recordedIDs (mapSet m k (mapGetSlice m k ++ [e]))).Perm (e.deviceID :: recordedIDs m) := by
  induction m with
  | nil => simp [mapSet, mapGetSlice, mapGet, recordedIDs]
  | cons kv m ih =>
    obtain ⟨k', v'⟩ := kv
    by_cases h : k' = k
    · subst h
      simp only [mapSet, mapGetSlice, mapGet, if_true, Option.getD_some, recordedIDs,
        List.flatMap_cons, List.map_append, List.map_cons, List.map_nil, List.append_assoc,
        List.singleton_append]
      exact List.perm_middle
    · have hs : mapGetSlice ((k', v') :: m) k = mapGetSlice m k := by
        simp [mapGetSlice, mapGet, h]
      rw [hs]
      simp only [mapSet, h, if_false, recordedIDs, List.flatMap_cons]
      have ih2 := ih
      simp only [recordedIDs] at ih2
      exact (List.Perm.append_left _ ih2).trans List.perm_middle

/-- The inner loop of `Allocate` records only IDs it was asked for, each at
most as often as it was asked for. -/
theorem allocateIDs_recorded_le (devices : GoMap Device) (podUID : String) (ids : List String)
    (st : AllocState) :
    ((recordedIDs (allocateIDs devices podUID ids st).1.allocatedDevices : List String) :
        Multiset String) ≤
      (ids : Multiset String) + (recordedIDs st.allocatedDevices : Multiset String) := by
  induction ids generalizing st with
  | nil => simp [allocateIDs]
  | cons id ids ih =>
    unfold allocateIDs
    cases h : mapGet devices id with
    | none => exact Multiset.le_add_left _ _
    | some dev =>
      by_cases hh : dev.Health ≠ Healthy
      · simp only [if_pos hh]
        exact Multiset.le_add_left _ _
      · simp only [if_neg hh]
        refine le_trans (ih _) ?_
        have hp := recordedIDs_append_entry st.allocatedDevices podUID
          { deviceID := id, allocated := false }
        rw [Multiset.coe_eq_coe.mpr hp]
        simp only [← Multiset.cons_coe, Multiset.add_cons, Multiset.cons_add]
        exact le_refl _

/-- The outer loop of `Allocate` records only IDs the containers asked for. -/
theorem allocateContainers_recorded_le (devices : GoMap Device)
    (cs : List ContainerAllocateRequest) (st : AllocState)
    (resp : List ContainerAllocateResponse) :
    ((recordedIDs (allocateContainers devices cs st resp).1.allocatedDevices : List String) :
        Multiset String) ≤
      ((cs.flatMap ContainerAllocateRequest.DevicesIDs : List String) : Multiset String) +
        (recordedIDs st.allocatedDevices : Multiset String) := by
  induction cs generalizing st resp with
  | nil => simp [allocateContainers]
  | cons c cs ih =>
    have hin := allocateIDs_recorded_le devices c.PodUID c.DevicesIDs st
    unfold allocateContainers
    rcases hres : allocateIDs devices c.PodUID c.DevicesIDs st with ⟨st1, _ | err⟩
    · rw [hres] at hin
      refine le_trans (ih st1 _) ?_
      simp only [List.flatMap_cons, ← Multiset.coe_add] at hin ⊢
      calc ((cs.flatMap ContainerAllocateRequest.DevicesIDs : List String) : Multiset String)
            + (recordedIDs st1.allocatedDevices : Multiset String)
          ≤ (cs.flatMap ContainerAllocateRequest.DevicesIDs : Multiset String)
            + ((c.DevicesIDs : Multiset String) + (recordedIDs st.allocatedDevices : Multiset String)) :=
            add_le_add_left hin _
        _ = (c.DevicesIDs : Multiset String)
            + (cs.flatMap ContainerAllocateRequest.DevicesIDs : Multiset String)
            + (recordedIDs st.allocatedDevices : Multiset String) := by
            rw [← add_assoc, add_comm (cs.flatMap ContainerAllocateRequest.DevicesIDs : Multiset String)]
    · rw [hres] at hin
      refine le_trans hin ?_
      simp only [List.flatMap_cons, ← Multiset.coe_add]
      exact add_le_add_right (Multiset.le_add_right _ _) _

/-- A sequence of `Allocate` calls records only IDs the calls asked for. -/
theorem AllocateAll_recorded_le (rqts : List AllocateRequest) (sm : sriovManager) :
    ((recordedIDs (AllocateAll sm rqts).allocatedDevices : List String) : Multiset String) ≤
      ((rqts.flatMap requestedIDs : List String) : Multiset String) +
        (recordedIDs sm.allocatedDevices : Multiset String) := by
  induction rqts generalizing sm with
  | nil => simp [AllocateAll]
  | cons r rqts ih =>
    have h1 : ((recordedIDs (Allocate sm r).1.allocatedDevices : List String) : Multiset String) ≤
        ((requestedIDs r : List String) : Multiset String) +
          (recordedIDs sm.allocatedDevices : Multiset String) :=
      allocateContainers_recorded_le sm.devices r.ContainerRequests
        { allocatedDevices := sm.allocatedDevices, pciAddrs := "" } []
    have h2 := ih (Allocate sm r).1
    have e : AllocateAll sm (r :: rqts) = AllocateAll (Allocate sm r).1 rqts := rfl
    rw [e]
    refine le_trans h2 ?_
    simp only [List.flatMap_cons, ← Multiset.coe_add]
    calc ((rqts.flatMap requestedIDs : List String) : Multiset String)
          + (recordedIDs (Allocate sm r).1.allocatedDevices : Multiset String)
        ≤ (rqts.flatMap requestedIDs : Multiset String)
          + ((requestedIDs r : Multiset String) + (recordedIDs sm.allocatedDevices : Multiset String)) :=
          add_le_add_left h1 _
      _ = (requestedIDs r : Multiset String) + (rqts.flatMap requestedIDs : Multiset String)
          + (recordedIDs sm.allocatedDevices : Multiset String) := by
          rw [← add_assoc, add_comm (rqts.flatMap requestedIDs : Multiset String)]

/-- Claim C5 as stated fails: two successful `Allocate` calls naming the same
healthy device for two pods leave that device ID in both pods' lists. -/
theorem AllocateAll_duplicates_device :
    (Allocate { emptySriovManager with devices := [("0000:03:02.0", ⟨"0000:03:02.0", Healthy⟩)] }
        ⟨[⟨"pod-1", "c0", ["0000:03:02.0"]⟩]⟩).2.2 = none ∧
    (Allocate
        (Allocate { emptySriovManager with devices := [("0000:03:02.0", ⟨"0000:03:02.0", Healthy⟩)] }
          ⟨[⟨"pod-1", "c0", ["0000:03:02.0"]⟩]⟩).1
        ⟨[⟨"pod-2", "c0", ["0000:03:02.0"]⟩]⟩).2.2 = none ∧
    (AllocateAll { emptySriovManager with devices := [("0000:03:02.0", ⟨"0000:03:02.0", Healthy⟩)] }
        [⟨[⟨"pod-1", "c0", ["0000:03:02.0"]⟩]⟩, ⟨[⟨"pod-2", "c0", ["0000:03:02.0"]⟩]⟩]).allocatedDevices =
      [("pod-1", [⟨"0000:03:02.0", false⟩]), ("pod-2", [⟨"0000:03:02.0", false⟩])] ∧
    ¬ (recordedIDs
        (AllocateAll { emptySriovManager with devices := [("0000:03:02.0", ⟨"0000:03:02.0", Healthy⟩)] }
          [⟨[⟨"pod-1", "c0", ["0000:03:02.0"]⟩]⟩,
            ⟨[⟨"pod-2", "c0", ["0000:03:02.0"]⟩]⟩]).allocatedDevices).Nodup := by
  decide

/-- Claim C5, amended. In every state reachable from a manager with an empty
allocation record by a sequence of `Allocate` calls, successful or failed,
whose requested device IDs - over all containers of all calls - are pairwise
distinct, no device ID occurs more than once across all pods' lists. -/
theorem AllocateAll_nodup_of_distinct_requests (sm : sriovManager) (rqts : List AllocateRequest)
    (hfresh : sm.allocatedDevices = []) (hdistinct : (rqts.flatMap requestedIDs).Nodup) :
    (recordedIDs (AllocateAll sm rqts).allocatedDevices).Nodup := by
  have h := AllocateAll_recorded_le rqts sm
  rw [hfresh] at h
  simp only [recordedIDs, List.flatMap_nil, Multiset.coe_nil, add_zero] at h
  exact Multiset.coe_nodup.mp (Multiset.nodup_of_le h (Multiset.coe_nodup.mpr hdistinct))

/-- Claim C5, amended, at a run of a successful call for two pods and a
failed call whose first device is recorded. -/
theorem AllocateAll_nodup_of_distinct_requests_witness :
    (([⟨[⟨"pod-1", "c0", ["a"]⟩, ⟨"pod-2", "c0", ["b"]⟩]⟩, ⟨[⟨"pod-1", "c1", ["c", "x"]⟩]⟩] :
        List AllocateRequest).flatMap requestedIDs).Nodup ∧
    (recordedIDs (AllocateAll
        { emptySriovManager with
          devices := [("a", ⟨"a", Healthy⟩), ("b", ⟨"b", Healthy⟩), ("c", ⟨"c", Healthy⟩)] }
        [⟨[⟨"pod-1", "c0", ["a"]⟩, ⟨"pod-2", "c0", ["b"]⟩]⟩,
          ⟨[⟨"pod-1", "c1", ["c", "x"]⟩]⟩]).allocatedDevices).Nodup :=
  ⟨by decide,
    AllocateAll_nodup_of_distinct_requests
      { emptySriovManager with
        devices := [("a", ⟨"a", Healthy⟩), ("b", ⟨"b", Healthy⟩), ("c", ⟨"c", Healthy⟩)] }
      [⟨[⟨"pod-1", "c0", ["a"]⟩, ⟨"pod-2", "c0", ["b"]⟩]⟩, ⟨[⟨"pod-1", "c1", ["c", "x"]⟩]⟩]
      rfl (by decide)⟩

end Sriovdp

/-! ### The resource server -/

namespace Resources

open Pluginapi

/-- The loop of `resourceServer.Allocate` appends one response per container
request. -/
theorem allocateLoop_eq_map (lib : Lib) (rs : resourceServer)
    (cs : List ContainerAllocateRequest) (acc : List ContainerAllocateResponse) :
    cs.foldl
      (fun resp container =>
        resp ++
          [({ Devices := rs.resourcePool.GetDeviceSpecs rs.resourcePool.GetDeviceFiles
                container.DevicesIDs,
              Envs := getEnvs lib rs container.DevicesIDs,
              Mounts := rs.resourcePool.GetMounts } : ContainerAllocateResponse)])
      acc =
    acc ++ cs.map (fun container =>
      ({ Devices := rs.resourcePool.GetDeviceSpecs rs.resourcePool.GetDeviceFiles
            container.DevicesIDs,
         Envs := getEnvs lib rs container.DevicesIDs,
         Mounts := rs.resourcePool.GetMounts } : ContainerAllocateResponse)) := by
  induction cs generalizing acc with
  | nil => simp
  | cons c cs ih => simp [List.foldl, ih]

/-- Claim C3 as stated fails: a batch naming a device ID the pool does not
hold (`0000:02:00.7`) and an unhealthy device (`0000:02:00.1`) is answered
with a response for its container and no error. -/
theorem Allocate_unusable_device_no_error :
    mapGet examplePool.GetDevices "0000:02:00.7" = none ∧
    (mapGet examplePool.GetDevices "0000:02:00.1").map Device.Health = some Unhealthy ∧
    Allocate exampleLib (newResourceServer "intel.com" "sock" examplePool)
        ⟨[⟨["0000:02:00.7", "0000:02:00.1"]⟩]⟩ =
      (some ⟨[{ Envs := [("PCIDEVICE_INTEL_COM_0000:02:00.1", "0000:02:00.1")],
                Mounts := [],
                Devices := [⟨"/dev/vfio/0000:02:00.1", "/dev/vfio/0000:02:00.1", "mrw"⟩] }]⟩,
        none) := by
  decide

/-- Claim C3, amended. `resourceServer.Allocate` never fails: for every pool
and every batch, also one naming a device ID that is not in the pool's
inventory or whose device is unhealthy, it returns no error and a response
with one container response per container request, in order, holding what
the pool's `GetDeviceSpecs`, the server's `getEnvs` and the pool's
`GetMounts` give for that container's device IDs. -/
theorem Allocate_never_fails (lib : Lib) (rs : resourceServer) (rqt : AllocateRequest) :
    Allocate lib rs rqt =
      (some { ContainerResponses := rqt.ContainerRequests.map (fun container =>
          { Devices := rs.resourcePool.GetDeviceSpecs rs.resourcePool.GetDeviceFiles
              container.DevicesIDs,
            Envs := getEnvs lib rs container.DevicesIDs,
            Mounts := rs.resourcePool.GetMounts }) },
        none) := by
  unfold Allocate
  simp only [allocateLoop_eq_map, List.nil_append]

/-! ### `ListAndWatch` -/

theorem collectDevices_eq_values (devices : GoMap Device) :
    collectDevices devices = devices.map Prod.snd := by
  have h : ∀ (acc : List Device),
      devices.foldl (fun devs kv => devs ++ [kv.2]) acc = acc ++ devices.map Prod.snd := by
    induction devices with
    | nil => intro acc; simp
    | cons kv devices ih => intro acc; simp [List.foldl, ih]
  simpa [collectDevices] using h []

/-- The event loop, when every send succeeds, answers `n` update signals
followed by a terminate signal with `n` responses and returns nil. -/
theorem watchLoop_updates_then_term (getDevices : Nat → GoMap Device) (n k : Nat)
    (sent : List ListAndWatchResponse) :
    watchLoop getDevices (fun _ => none) (List.replicate n Signal.update ++ [Signal.term]) k sent =
      { sent := sent ++ (List.range n).map (fun i => { Devices := (getDevices (k + i)).map Prod.snd }),
        outcome := Outcome.returned none } := by
  induction n generalizing k sent with
  | zero => simp [watchLoop]
  | succ n ih =>
    rw [List.replicate_succ, List.cons_append]
    unfold watchLoop
    simp only [ih, collectDevices_eq_values, List.append_assoc, List.singleton_append]
    rw [List.range_succ_eq_map]
    simp only [List.map_cons, List.map_map, Nat.add_zero]
    congr 2
    refine congrArg (List.cons _) (List.map_congr_left ?_)
    intro i _
    have e : k + 1 + i = k + Nat.succ i := by omega
    simp only [Function.comp_apply, e]

/-- Claim C6. For every run of `resourceServer.ListAndWatch` in which every
stream send succeeds and the handler receives `n` update signals followed by
one terminate signal, the stream is sent exactly `n + 1` responses, the k-th
of them carrying the device list the k-th call of the pool's `GetDevices`
returned, and the call returns without error, leaving the server as it was. -/
theorem ListAndWatch_updates_then_term (rs : resourceServer) (getDevices : Nat → GoMap Device)
    (n : Nat) :
    ListAndWatch rs getDevices (fun _ => none) (List.replicate n Signal.update ++ [Signal.term]) =
      (rs, { sent := (List.range (n + 1)).map
               (fun k => { Devices := (getDevices k).map Prod.snd }),
             outcome := Outcome.returned none }) ∧
    (ListAndWatch rs getDevices (fun _ => none)
      (List.replicate n Signal.update ++ [Signal.term])).2.sent.length = n + 1 := by
  have h : ListAndWatch rs getDevices (fun _ => none)
      (List.replicate n Signal.update ++ [Signal.term]) =
      (rs, { sent := (List.range (n + 1)).map
               (fun k => { Devices := (getDevices k).map Prod.snd }),
             outcome := Outcome.returned none }) := by
    unfold ListAndWatch
    simp only [watchLoop_updates_then_term, collectDevices_eq_values, List.singleton_append]
    rw [List.range_succ_eq_map]
    simp only [List.map_cons, List.map_map]
    congr 3
    refine List.map_congr_left ?_
    intro i _
    have e : 1 + i = Nat.succ i := by omega
    simp only [Function.comp_apply, e]
  refine ⟨h, ?_⟩
  rw [h]
  simp

/-! ### `GetInfo` -/

/-- Claim C10. For every prefix, suffix and resource pool with resource name
`r`, `GetInfo` on the server built by `newResourceServer` returns, with no
error, plugin type `DevicePlugin`, name `prefix/r`, an endpoint equal to the
plugin socket directory joined with the file name `r.suffix`, and the
supported versions `v1alpha1`, `v1beta1`, `v1`. -/
theorem GetInfo_newResourceServer (lib : Lib) (pfx suffix : String) (rp : ResourcePool) :
    GetInfo lib (newResourceServer pfx suffix rp) =
      (some { pluginType := "DevicePlugin",
              Name := pfx ++ "/" ++ rp.GetResourceName,
              Endpoint := lib.Join lib.SockDir (rp.GetResourceName ++ "." ++ suffix),
              SupportedVersions := ["v1alpha1", "v1beta1", "v1"] },
        none) := by
  rfl

/-! ### `getEnvs` -/

/-- A loop of map writes under renamed keys holds, besides what the map held
before, only values the loop wrote, each under the renamed key of its pair. -/
theorem renameLoop_get {V : Type} (f : String → String) (l : List (String × V)) (acc : GoMap V)
    (key : String) (v : V)
    (h : mapGet (l.foldl (fun m kv => mapSet m (f kv.1) kv.2) acc) key = some v) :
    mapGet acc key = some v ∨ ∃ k, (k, v) ∈ l ∧ key = f k := by
  induction l generalizing acc with
  | nil => exact Or.inl h
  | cons kv l ih =>
    rcases ih _ h with h1 | ⟨k, hk, he⟩
    · by_cases hkey : f kv.1 = key
      · subst hkey
        rw [mapGet_mapSet_self] at h1
        cases h1
        exact Or.inr ⟨kv.1, List.mem_cons_self _ _, rfl⟩
      · rw [mapGet_mapSet_ne _ _ _ _ hkey] at h1
        exact Or.inl h1
    · exact Or.inr ⟨k, List.mem_cons_of_mem _ hk, he⟩

/-- A loop of map writes under renamed keys keeps the keys the map held and
holds the renamed key of every pair of the loop. -/
theorem renameLoop_isSome {V : Type} (f : String → String) (l : List (String × V))
    (acc : GoMap V) (key : String)
    (h : (mapGet acc key).isSome = true ∨ ∃ kv ∈ l, f kv.1 = key) :
    (mapGet (l.foldl (fun m kv => mapSet m (f kv.1) kv.2) acc) key).isSome = true := by
  induction l generalizing acc with
  | nil =>
    rcases h with h | ⟨kv, hkv, _⟩
    · exact h
    · cases hkv
  | cons kv l ih =>
    apply ih
    rcases h with h | ⟨kv2, hkv, he⟩
    · left
      by_cases hkey : f kv.1 = key
      · subst hkey; rw [mapGet_mapSet_self]; rfl
      · rw [mapGet_mapSet_ne _ _ _ _ hkey]; exact h
    · rcases List.mem_cons.mp hkv with rfl | hin
      · left; subst he; rw [mapGet_mapSet_self]; rfl
      · right; exact ⟨kv2, hin, he⟩

/-- Claim C9. For every list of device IDs, every key of the map returned by
`resourceServer.getEnvs` is the upper-cased string `PCIDEVICE_` + R + `_` + k
for some key k of the pool's `GetEnvs` result and carries the value the pool
gave for such a k, where R is the server's resource-name prefix with every
`.` replaced by `_`; and every key k of the pool's result yields such a key
in the returned map. -/
theorem getEnvs_keys (lib : Lib) (rs : resourceServer) (deviceIDs : List String) :
    (∀ key v, mapGet (getEnvs lib rs deviceIDs) key = some v →
      ∃ k, (k, v) ∈ rs.resourcePool.GetEnvs deviceIDs ∧
        key = lib.ToUpper ("PCIDEVICE_" ++ replaceDots rs.resourceNamePrefix ++ "_" ++ k)) ∧
    (∀ k v, (k, v) ∈ rs.resourcePool.GetEnvs deviceIDs →
      (mapGet (getEnvs lib rs deviceIDs)
        (lib.ToUpper ("PCIDEVICE_" ++ replaceDots rs.resourceNamePrefix ++ "_" ++ k))).isSome
        = true) := by
  have hpre : ("PCIDEVICE" : String) ++ "_" = "PCIDEVICE_" := by decide
  constructor
  · intro key v h
    rcases renameLoop_get
        (fun k => lib.ToUpper ("PCIDEVICE" ++ "_" ++ replaceDots rs.resourceNamePrefix ++ "_" ++ k))
        (rs.resourcePool.GetEnvs deviceIDs) [] key v h with h0 | ⟨k, hk, he⟩
    · cases h0
    · exact ⟨k, hk, by rw [he, hpre]⟩
  · intro k v hk
    have := renameLoop_isSome
        (fun k => lib.ToUpper ("PCIDEVICE" ++ "_" ++ replaceDots rs.resourceNamePrefix ++ "_" ++ k))
        (rs.resourcePool.GetEnvs deviceIDs) []
        (lib.ToUpper ("PCIDEVICE_" ++ replaceDots rs.resourceNamePrefix ++ "_" ++ k))
        (Or.inr ⟨(k, v), hk, by simp only [hpre]⟩)
    exact this

end Resources

/-! ### The pool of network devices -/

namespace Netdevice

open Pluginapi

/-- The outer loop of `GetDeviceSpecs` skips an ID the pool does not hold. -/
theorem getDeviceSpecsLoop_cons_absent (rp : netResourcePool) (id : String) (ids : List String)
    (devSpecs : List DeviceSpec) (h : mapGet rp.devicePool id = none) :
    getDeviceSpecsLoop rp (id :: ids) devSpecs = getDeviceSpecsLoop rp ids devSpecs := by
  rw [getDeviceSpecsLoop]
  simp only [h]

/-- The outer loop of `GetDeviceSpecs` does for a request what it does for
the IDs of the request that the pool holds. -/
theorem getDeviceSpecsLoop_filter_present (rp : netResourcePool) (ids : List String)
    (devSpecs : List DeviceSpec) :
    getDeviceSpecsLoop rp ids devSpecs =
      getDeviceSpecsLoop rp (ids.filter (fun id => (mapGet rp.devicePool id).isSome)) devSpecs := by
  induction ids generalizing devSpecs with
  | nil => rfl
  | cons id ids ih =>
    cases h : mapGet rp.devicePool id with
    | none =>
      rw [List.filter_cons_of_neg (by simp [h]), getDeviceSpecsLoop_cons_absent _ _ _ _ h]
      exact ih devSpecs
    | some dev =>
      rw [List.filter_cons_of_pos (by simp [h])]
      cases dev with
      | other => simp [getDeviceSpecsLoop, h]
      | netDevice d =>
        cases hs : rp.selectors with
        | none => simp [getDeviceSpecsLoop, h, hs]
        | some sel =>
          simp only [getDeviceSpecsLoop, h, hs]
          exact ih _

/-- The outer loop of `GetDeviceSpecs` adds nothing for IDs the pool does not
hold. -/
theorem getDeviceSpecsLoop_filter_absent (rp : netResourcePool) (ids : List String)
    (devSpecs : List DeviceSpec) :
    getDeviceSpecsLoop rp (ids.filter (fun id => (mapGet rp.devicePool id).isNone)) devSpecs =
      some devSpecs := by
  induction ids with
  | nil => rfl
  | cons id ids ih =>
    cases h : mapGet rp.devicePool id with
    | none =>
      rw [List.filter_cons_of_pos (by simp [h]), getDeviceSpecsLoop_cons_absent _ _ _ _ h]
      exact ih
    | some dev =>
      rw [List.filter_cons_of_neg (by simp [h])]
      exact ih

/-- Claim C7. For every device pool and every list of requested IDs,
`netResourcePool.GetDeviceSpecs` returns exactly what it returns for the
sublist of the requested IDs that are present in the pool: an ID absent from
the inventory contributes nothing and causes no failure, and a request made
only of unknown IDs yields the empty list. -/
theorem GetDeviceSpecs_skips_unknown (rp : netResourcePool) (deviceIDs : List String) :
    GetDeviceSpecs rp deviceIDs =
      GetDeviceSpecs rp (deviceIDs.filter (fun id => (mapGet rp.devicePool id).isSome)) ∧
    GetDeviceSpecs rp (deviceIDs.filter (fun id => (mapGet rp.devicePool id).isNone)) = some [] :=
  ⟨getDeviceSpecsLoop_filter_present rp deviceIDs [],
    getDeviceSpecsLoop_filter_absent rp deviceIDs []⟩

/-! ### RDMA specs -/

theorem appendNewSpecs_append (exist : List DeviceSpec → DeviceSpec → Bool)
    (devSpecs l1 l2 : List DeviceSpec) :
    appendNewSpecs exist devSpecs (l1 ++ l2) =
      appendNewSpecs exist (appendNewSpecs exist devSpecs l1) l2 := by
  induction l1 generalizing devSpecs with
  | nil => rfl
  | cons ds l1 ih =>
    rw [List.cons_append, appendNewSpecs, appendNewSpecs]
    split
    · exact ih _
    · exact ih _

/-- The inner loop of `GetDeviceSpecs` only appends to the list built so far. -/
theorem appendNewSpecs_extends (exist : List DeviceSpec → DeviceSpec → Bool)
    (devSpecs l : List DeviceSpec) : devSpecs <+: appendNewSpecs exist devSpecs l := by
  induction l generalizing devSpecs with
  | nil => exact List.prefix_refl _
  | cons ds l ih =>
    rw [appendNewSpecs]
    split
    · exact (List.prefix_append devSpecs [ds]).trans (ih _)
    · exact ih _

/-- The inner loop of `GetDeviceSpecs` appends nothing but the new specs. -/
theorem mem_appendNewSpecs (exist : List DeviceSpec → DeviceSpec → Bool)
    (devSpecs l : List DeviceSpec) (sp : DeviceSpec)
    (h : sp ∈ appendNewSpecs exist devSpecs l) : sp ∈ devSpecs ∨ sp ∈ l := by
  induction l generalizing devSpecs with
  | nil => exact Or.inl h
  | cons ds l ih =>
    rw [appendNewSpecs] at h
    split at h
    · rcases ih _ h with h1 | h1
      · rcases List.mem_append.mp h1 with h2 | h2
        · exact Or.inl h2
        · rw [List.mem_singleton] at h2
          exact Or.inr (h2 ▸ List.mem_cons_self _ _)
      · exact Or.inr (List.mem_cons_of_mem _ h1)
    · rcases ih _ h with h1 | h1
      · exact Or.inl h1
      · exact Or.inr (List.mem_cons_of_mem _ h1)

/-- Every new spec is in the list the inner loop of `GetDeviceSpecs` builds,
unless `DeviceSpecExist` found it in the list built so far. -/
theorem appendNewSpecs_covers (exist : List DeviceSpec → DeviceSpec → Bool)
    (devSpecs l : List DeviceSpec) (sp : DeviceSpec) (h : sp ∈ l) :
    sp ∈ appendNewSpecs exist devSpecs l ∨
      ∃ pre, pre <+: appendNewSpecs exist devSpecs l ∧ exist pre sp = true := by
  induction l generalizing devSpecs with
  | nil => cases h
  | cons ds l ih =>
    rw [appendNewSpecs]
    rcases List.mem_cons.mp h with rfl | hin
    · by_cases he : exist devSpecs sp = true
      · right
        simp only [he, Bool.not_true, Bool.false_eq_true, if_false]
        exact ⟨devSpecs, appendNewSpecs_extends _ _ _, he⟩
      · left
        simp only [he, Bool.not_false, if_true]
        exact (appendNewSpecs_extends exist (devSpecs ++ [sp]) l).subset (by simp)
    · split
      · exact ih _ hin
      · exact ih _ hin

/-- The specs `GetDeviceSpecs` takes from a network device are the specs the
specification names. -/
theorem newSpecs_eq_specifiedSpecs (selectors : NetDeviceSelectors) (netDev : PciNetDevice) :
    (if selectors.IsRdma = true then
        if netDev.GetRdmaSpec.IsRdma = true then
          netDev.GetDeviceSpecs ++ netDev.GetRdmaSpec.GetRdmaDeviceSpec
        else netDev.GetDeviceSpecs
      else netDev.GetDeviceSpecs) = specifiedSpecs selectors netDev := by
  unfold specifiedSpecs
  by_cases h1 : selectors.IsRdma = true <;> by_cases h2 : netDev.GetRdmaSpec.IsRdma = true <;>
    simp [h1, h2]

/-- The outer loop of `GetDeviceSpecs`, on a pool with a selector and a
request naming network devices only, merges the specified specs of the
requested devices into the list. -/
theorem getDeviceSpecsLoop_eq_specified (rp : netResourcePool) (selectors : NetDeviceSelectors)
    (hsel : rp.selectors = some selectors) (ids : List String)
    (hnet : ∀ id ∈ ids, mapGet rp.devicePool id ≠ some PciDevice.other)
    (devSpecs : List DeviceSpec) :
    getDeviceSpecsLoop rp ids devSpecs =
      some (appendNewSpecs rp.DeviceSpecExist devSpecs
        ((requestedNetDevices rp ids).flatMap (specifiedSpecs selectors))) := by
  induction ids generalizing devSpecs with
  | nil => rfl
  | cons id ids ih =>
    have hrest : ∀ id2 ∈ ids, mapGet rp.devicePool id2 ≠ some PciDevice.other :=
      fun id2 h2 => hnet id2 (List.mem_cons_of_mem _ h2)
    cases h : mapGet rp.devicePool id with
    | none =>
      rw [getDeviceSpecsLoop_cons_absent _ _ _ _ h, ih hrest]
      simp [requestedNetDevices, h]
    | some dev =>
      cases dev with
      | other => exact absurd h (hnet id (List.mem_cons_self _ _))
      | netDevice d =>
        rw [getDeviceSpecsLoop]
        simp only [h, hsel, newSpecs_eq_specifiedSpecs]
        rw [ih hrest]
        simp [requestedNetDevices, h, appendNewSpecs_append]

/-- Claim C8. On a pool with a selector, for a request naming only network
devices of the pool or unknown IDs, `GetDeviceSpecs` returns the list built
from each requested device's driver-specific specs followed by its RDMA
device specs if and only if the selector requires RDMA and the device's RDMA
spec reports RDMA capability. Every returned spec is a driver-specific spec
of a requested device or an RDMA spec of a requested RDMA-capable device
under a selector requiring RDMA; every driver-specific spec of every
requested device - also of one lacking RDMA under a selector requiring it -
and every RDMA spec of a requested RDMA-capable device under such a selector
is returned, unless `DeviceSpecExist` found it in the list built so far. -/
theorem GetDeviceSpecs_rdma (rp : netResourcePool) (selectors : NetDeviceSelectors)
    (deviceIDs : List String) (hsel : rp.selectors = some selectors)
    (hnet : ∀ id ∈ deviceIDs, mapGet rp.devicePool id ≠ some PciDevice.other) :
    GetDeviceSpecs rp deviceIDs = some (specifiedDeviceSpecs rp selectors deviceIDs) ∧
    (∀ sp ∈ specifiedDeviceSpecs rp selectors deviceIDs,
      ∃ d ∈ requestedNetDevices rp deviceIDs,
        sp ∈ d.GetDeviceSpecs ∨
          (selectors.IsRdma = true ∧ d.GetRdmaSpec.IsRdma = true ∧
            sp ∈ d.GetRdmaSpec.GetRdmaDeviceSpec)) ∧
    (∀ d ∈ requestedNetDevices rp deviceIDs, ∀ sp ∈ d.GetDeviceSpecs,
      sp ∈ specifiedDeviceSpecs rp selectors deviceIDs ∨
        ∃ pre, pre <+: specifiedDeviceSpecs rp selectors deviceIDs ∧
          rp.DeviceSpecExist pre sp = true) ∧
    (∀ d ∈ requestedNetDevices rp deviceIDs,
      selectors.IsRdma = true → d.GetRdmaSpec.IsRdma = true →
      ∀ sp ∈ d.GetRdmaSpec.GetRdmaDeviceSpec,
        sp ∈ specifiedDeviceSpecs rp selectors deviceIDs ∨
          ∃ pre, pre <+: specifiedDeviceSpecs rp selectors deviceIDs ∧
            rp.DeviceSpecExist pre sp = true) := by
  refine ⟨getDeviceSpecsLoop_eq_specified rp selectors hsel deviceIDs hnet [], ?_, ?_, ?_⟩
  · intro sp hsp
    rcases mem_appendNewSpecs _ _ _ _ hsp with h | h
    · cases h
    · obtain ⟨d, hd, hin⟩ := List.mem_flatMap.mp h
      refine ⟨d, hd, ?_⟩
      unfold specifiedSpecs at hin
      rcases List.mem_append.mp hin with h1 | h1
      · exact Or.inl h1
      · by_cases hc : selectors.IsRdma = true ∧ d.GetRdmaSpec.IsRdma = true
        · rw [if_pos hc] at h1
          exact Or.inr ⟨hc.1, hc.2, h1⟩
        · rw [if_neg hc] at h1
          cases h1
  · intro d hd sp hsp
    apply appendNewSpecs_covers
    exact List.mem_flatMap.mpr ⟨d, hd, by unfold specifiedSpecs; exact List.mem_append_left _ hsp⟩
  · intro d hd h1 h2 sp hsp
    apply appendNewSpecs_covers
    refine List.mem_flatMap.mpr ⟨d, hd, ?_⟩
    unfold specifiedSpecs
    rw [if_pos ⟨h1, h2⟩]
    exact List.mem_append_right _ hsp

/-- Claim C8 at a pool whose selector requires RDMA: the request names a
device without RDMA, an unknown ID and a device with RDMA; the driver
specs of both devices are returned (the shared control node once), and the
RDMA spec of the second device only. -/
theorem GetDeviceSpecs_rdma_witness :
    examplePool.selectors = some { IsRdma := true } ∧
    (∀ id ∈ ["0000:03:00.1", "0000:03:00.9", "0000:03:00.0"],
      mapGet examplePool.devicePool id ≠ some PciDevice.other) ∧
    GetDeviceSpecs examplePool ["0000:03:00.1", "0000:03:00.9", "0000:03:00.0"] =
      some [⟨"/dev/vfio/vfio", "/dev/vfio/vfio", "mrw"⟩, ⟨"/dev/vfio/8", "/dev/vfio/8", "mrw"⟩,
        ⟨"/dev/vfio/7", "/dev/vfio/7", "mrw"⟩,
        ⟨"/dev/infiniband/uverbs0", "/dev/infiniband/uverbs0", "rwm"⟩] :=
  ⟨rfl, by decide,
    (GetDeviceSpecs_rdma examplePool { IsRdma := true }
      ["0000:03:00.1", "0000:03:00.9", "0000:03:00.0"] rfl (by decide)).1.trans (by decide)⟩

end Netdevice

/-! ### The life cycle of the resource server -/

namespace Resources

open Pluginapi

/-- Claim C11 as stated fails. A watcher that has served one restart request
is over; a registration failure reported after that is sent on the
unbuffered `restartSignal`, where nobody receives it any more: the handler
stays blocked in its send and returns no response. -/
theorem NotifyRegistrationStatus_blocks_without_watcher :
    (Watch exampleLib { exampleServing with restartSignal := [true] }
        ["/var/lib/kubelet/plugins_registry/intel_sriov_vfio.sock"]
        { removeDenied := none, listenErr := none, dialErr := none } WatchCase.restart).outcome
      = WatchOutcome.ended (CallResult.returned none) ∧
    (NotifyRegistrationStatus
        (Watch exampleLib { exampleServing with restartSignal := [true] }
          ["/var/lib/kubelet/plugins_registry/intel_sriov_vfio.sock"]
          { removeDenied := none, listenErr := none, dialErr := none } WatchCase.restart).rs
        { PluginRegistered := false, Error := "plugin registration failed" }
        (Watch exampleLib { exampleServing with restartSignal := [true] }
          ["/var/lib/kubelet/plugins_registry/intel_sriov_vfio.sock"]
          { removeDenied := none, listenErr := none, dialErr := none } WatchCase.restart).outcome).2
      = NotifyResult.blocked ∧
    (NotifyRegistrationStatus
        (Watch exampleLib { exampleServing with restartSignal := [true] }
          ["/var/lib/kubelet/plugins_registry/intel_sriov_vfio.sock"]
          { removeDenied := none, listenErr := none, dialErr := none } WatchCase.restart).rs
        { PluginRegistered := false, Error := "plugin registration failed" }
        (Watch exampleLib { exampleServing with restartSignal := [true] }
          ["/var/lib/kubelet/plugins_registry/intel_sriov_vfio.sock"]
          { removeDenied := none, listenErr := none, dialErr := none }
          WatchCase.restart).outcome).1.restartSignal
      = [true] := by
  decide

/-- Claim C11, amended. `resourceServer.NotifyRegistrationStatus` places a
restart request on the restart signal if and only if the registration status
reports the plugin as not registered. On a status reporting success it
returns an empty response and no error, whatever the watcher does, and
changes no server state. On a status reporting failure it changes nothing
but the restart signal; it returns the empty response and no error when a
waiting watcher receives the request, and it stays blocked in its send,
returning nothing, when the watcher is over. -/
theorem NotifyRegistrationStatus_restart_iff (rs : resourceServer)
    (regstat : RegistrationStatus) (watcher : WatchOutcome) :
    ((NotifyRegistrationStatus rs regstat watcher).1.restartSignal =
        rs.restartSignal ++ [true] ↔ regstat.PluginRegistered = false) ∧
    (regstat.PluginRegistered = true →
      NotifyRegistrationStatus rs regstat watcher =
        (rs, NotifyResult.returned (some {}) none)) ∧
    (regstat.PluginRegistered = false →
      (NotifyRegistrationStatus rs regstat watcher).1 =
        { rs with restartSignal := rs.restartSignal ++ [true] }) ∧
    (regstat.PluginRegistered = false → watcher = WatchOutcome.waiting →
      (NotifyRegistrationStatus rs regstat watcher).2 =
        NotifyResult.returned (some {}) none) ∧
    (regstat.PluginRegistered = false → ∀ result, watcher = WatchOutcome.ended result →
      (NotifyRegistrationStatus rs regstat watcher).2 = NotifyResult.blocked) := by
  unfold NotifyRegistrationStatus
  cases h : regstat.PluginRegistered with
  | true =>
    simp only [if_true, Bool.true_eq_false, iff_false, false_imp_iff, imp_self, and_true,
      forall_const, implies_true]
    intro hl
    have := congrArg List.length hl
    simp at this
  | false =>
    cases watcher with
    | waiting => simp
    | ended result => simp

/-- Claim C11, amended, at a serving server: a failure reported while the
watcher waits is answered, and a success is answered whatever the watcher
does. -/
theorem NotifyRegistrationStatus_restart_iff_witness :
    (NotifyRegistrationStatus exampleServing
        { PluginRegistered := false, Error := "plugin registration failed" }
        WatchOutcome.waiting).2 = NotifyResult.returned (some {}) none ∧
    (NotifyRegistrationStatus exampleServing
        { PluginRegistered := false, Error := "plugin registration failed" }
        WatchOutcome.waiting).1.restartSignal = [true] ∧
    NotifyRegistrationStatus exampleServing { PluginRegistered := true, Error := "" }
        (WatchOutcome.ended (CallResult.returned none)) =
      (exampleServing, NotifyResult.returned (some {}) none) :=
  ⟨(NotifyRegistrationStatus_restart_iff exampleServing
      { PluginRegistered := false, Error := "plugin registration failed" }
      WatchOutcome.waiting).2.2.2.1 rfl rfl,
    by decide,
    (NotifyRegistrationStatus_restart_iff exampleServing
      { PluginRegistered := true, Error := "" }
      (WatchOutcome.ended (CallResult.returned none))).2.1 rfl⟩

/-- Claim C12, the code at the failing input: two restart requests are
signalled to the watcher of a serving server and no stop. `Watch` performs
one restart (a fresh server instance serves, a terminate signal is left for
`ListAndWatch`) and is over; the second request stays on `restartSignal`
with no watcher to receive it. -/
theorem Watch_serves_one_restart_only :
    (Watch exampleLib { exampleServing with restartSignal := [true, true] }
        ["/var/lib/kubelet/plugins_registry/intel_sriov_vfio.sock"]
        { removeDenied := none, listenErr := none, dialErr := none } WatchCase.restart).restarts
      = 1 ∧
    (Watch exampleLib { exampleServing with restartSignal := [true, true] }
        ["/var/lib/kubelet/plugins_registry/intel_sriov_vfio.sock"]
        { removeDenied := none, listenErr := none, dialErr := none } WatchCase.restart).outcome
      = WatchOutcome.ended (CallResult.returned none) ∧
    (Watch exampleLib { exampleServing with restartSignal := [true, true] }
        ["/var/lib/kubelet/plugins_registry/intel_sriov_vfio.sock"]
        { removeDenied := none, listenErr := none, dialErr := none } WatchCase.restart).rs.restartSignal
      = [true] ∧
    (Watch exampleLib { exampleServing with restartSignal := [true, true] }
        ["/var/lib/kubelet/plugins_registry/intel_sriov_vfio.sock"]
        { removeDenied := none, listenErr := none, dialErr := none } WatchCase.restart).rs.termSignal
      = [true] ∧
    (Watch exampleLib { exampleServing with restartSignal := [true, true] }
        ["/var/lib/kubelet/plugins_registry/intel_sriov_vfio.sock"]
        { removeDenied := none, listenErr := none, dialErr := none } WatchCase.restart).rs.grpcServer
      = some { serving := true, stopped := false } := by
  decide

/-- The method `cleanUp` returns nil only when no file is left at the socket
path. -/
theorem cleanUp_nil_removes (lib : Lib) (rs : resourceServer) (files : List String)
    (denied : Option String) (h : (cleanUp lib rs files denied).2 = none) :
    sockPath lib rs ∉ (cleanUp lib rs files denied).1 := by
  unfold cleanUp osRemove at *
  cases denied with
  | some err => simp at h
  | none =>
    by_cases hin : sockPath lib rs ∈ files
    · simp [hin]
    · simp [hin]

/-- Claim C13. `Stop` is idempotent, for `resourceServer.Stop` and for
`sriovManager.Stop`: on a server that is already stopped (its gRPC server
instance is nil) it returns no error, sends no signal and changes no state,
and after any call of `Stop` a second call returns nil and leaves the server
and the socket directory as the first call left them. -/
theorem Stop_idempotent (lib : Lib) (rs : resourceServer) (host : Sriovdp.Host)
    (sm : Sriovdp.sriovManager) (files : List String) (denied1 denied2 : Option String) :
    (rs.grpcServer = none → Stop lib rs files denied1 = (rs, files, none)) ∧
    Stop lib (Stop lib rs files denied1).1 (Stop lib rs files denied1).2.1 denied2 =
      ((Stop lib rs files denied1).1, (Stop lib rs files denied1).2.1, none) ∧
    (sm.grpcServer = none → Sriovdp.Stop host sm files denied1 = (sm, files, none)) ∧
    Sriovdp.Stop host (Sriovdp.Stop host sm files denied1).1
        (Sriovdp.Stop host sm files denied1).2.1 denied2 =
      ((Sriovdp.Stop host sm files denied1).1, (Sriovdp.Stop host sm files denied1).2.1, none) := by
  refine ⟨?_, ?_, ?_, ?_⟩
  · intro h
    simp [Stop, h]
  · cases h : rs.grpcServer with
    | none => simp [Stop, h]
    | some g => simp [Stop, h]
  · intro h
    simp [Sriovdp.Stop, h]
  · cases h : sm.grpcServer with
    | none => simp [Sriovdp.Stop, h]
    | some g => simp [Sriovdp.Stop, h]

/-- Claim C13 at a serving server and a serving manager. -/
theorem Stop_idempotent_witness :
    (Stop exampleLib exampleServing ["/var/lib/kubelet/plugins_registry/intel_sriov_vfio.sock"]
        none).1.grpcServer = none ∧
    (Stop exampleLib
        (Stop exampleLib exampleServing
          ["/var/lib/kubelet/plugins_registry/intel_sriov_vfio.sock"] none).1
        (Stop exampleLib exampleServing
          ["/var/lib/kubelet/plugins_registry/intel_sriov_vfio.sock"] none).2.1
        none).2 = ([], none) ∧
    (Sriovdp.Stop Sriovdp.exampleHost { Sriovdp.emptySriovManager with grpcServer := some 1 }
        ["/var/lib/kubelet/device-plugins/sriovNet.sock"] none).1.grpcServer = none :=
  ⟨by decide,
    (congrArg Prod.snd
      (Stop_idempotent exampleLib exampleServing Sriovdp.exampleHost
        { Sriovdp.emptySriovManager with grpcServer := some 1 }
        ["/var/lib/kubelet/plugins_registry/intel_sriov_vfio.sock"] none none).2.1).trans
      (by decide),
    by decide⟩

/-! ### Socket files -/

/-- Claim C14 as stated fails. A `Start` whose self-dial fails returns the
error and leaves the socket file it bound; and a `Stop` on a server whose
gRPC server instance is nil returns nil and leaves a socket file at the
endpoint path where it is. -/
theorem Start_dial_failure_leaves_socket :
    (Start exampleLib (newResourceServer "intel.com" "sock" examplePool) []
        { removeDenied := none, listenErr := none,
          dialErr := some "context deadline exceeded" }).2 =
      (["/var/lib/kubelet/plugins_registry/intel_sriov_vfio.sock"],
        CallResult.returned (some "context deadline exceeded")) ∧
    sockPath exampleLib (newResourceServer "intel.com" "sock" examplePool) =
      "/var/lib/kubelet/plugins_registry/intel_sriov_vfio.sock" ∧
    (Stop exampleLib { newResourceServer "intel.com" "sock" examplePool with grpcServer := none }
        ["/var/lib/kubelet/plugins_registry/intel_sriov_vfio.sock"] none).2 = (["/var/lib/kubelet/plugins_registry/intel_sriov_vfio.sock"], none) := by
  decide

/-- Claim C14, amended. With the socket directory as explicit state: after a
call of `resourceServer.Stop` on a server with a gRPC server instance that
returns nil, and after a `Start` that fails at binding once its initial
clean-up has succeeded, no socket file exists at the server's endpoint path;
a `Start` on a fresh gRPC server instance whose self-dial fails returns the
error and leaves the socket file it bound. -/
theorem socket_file_after_Stop_and_Start (lib : Lib) (rs : resourceServer) (files : List String)
    (denied : Option String) (env : StartEnv) :
    (rs.grpcServer ≠ none → (Stop lib rs files denied).2.2 = none →
      sockPath lib rs ∉ (Stop lib rs files denied).2.1) ∧
    ((cleanUp lib rs files env.removeDenied).2 = none → env.listenErr ≠ none →
      (Start lib rs files env).2.2 = CallResult.returned env.listenErr ∧
      sockPath lib rs ∉ (Start lib rs files env).2.1) ∧
    ((cleanUp lib rs files env.removeDenied).2 = none → env.listenErr = none →
      rs.grpcServer = some GrpcServer.new → env.dialErr ≠ none →
      (Start lib rs files env).2.2 = CallResult.returned env.dialErr ∧
      sockPath lib rs ∈ (Start lib rs files env).2.1) := by
  refine ⟨?_, ?_, ?_⟩
  · intro hg hnil
    cases h : rs.grpcServer with
    | none => exact absurd h hg
    | some g =>
      simp only [Stop, h] at hnil ⊢
      exact cleanUp_nil_removes lib _ files denied hnil
  · intro hclean hlisten
    have hnot := cleanUp_nil_removes lib rs files env.removeDenied hclean
    cases hl : env.listenErr with
    | none => exact absurd hl hlisten
    | some err => simp [Start, hnot, hl]
  · intro hclean hlisten hg hdial
    have hnot := cleanUp_nil_removes lib rs files env.removeDenied hclean
    cases hd : env.dialErr with
    | none => exact absurd hd hdial
    | some err => simp [Start, hnot, hlisten, hg, hd, GrpcServer.new]

/-- Claim C14, amended, at a serving server that is stopped, at a `Start`
that cannot bind and at a `Start` on a fresh instance whose self-dial
fails. -/
theorem socket_file_after_Stop_and_Start_witness :
    "/var/lib/kubelet/plugins_registry/intel_sriov_vfio.sock" ∉
      (Stop exampleLib exampleServing
        ["/var/lib/kubelet/plugins_registry/intel_sriov_vfio.sock"] none).2.1 ∧
    "/var/lib/kubelet/plugins_registry/intel_sriov_vfio.sock" ∉
      (Start exampleLib (newResourceServer "intel.com" "sock" examplePool)
        ["/var/lib/kubelet/plugins_registry/intel_sriov_vfio.sock"]
        { removeDenied := none, listenErr := some "bind: permission denied", dialErr := none }).2.1 ∧
    "/var/lib/kubelet/plugins_registry/intel_sriov_vfio.sock" ∈
      (Start exampleLib (newResourceServer "intel.com" "sock" examplePool)
        ["/var/lib/kubelet/plugins_registry/intel_sriov_vfio.sock"]
        { removeDenied := none, listenErr := none, dialErr := some "context deadline exceeded" }).2.1 :=
  ⟨(socket_file_after_Stop_and_Start exampleLib exampleServing
      ["/var/lib/kubelet/plugins_registry/intel_sriov_vfio.sock"] none
      { removeDenied := none, listenErr := none, dialErr := none }).1 (by decide) (by decide),
    ((socket_file_after_Stop_and_Start exampleLib
      (newResourceServer "intel.com" "sock" examplePool)
      ["/var/lib/kubelet/plugins_registry/intel_sriov_vfio.sock"] none
      { removeDenied := none, listenErr := some "bind: permission denied", dialErr := none }).2.1
        (by decide) (by decide)).2,
    ((socket_file_after_Stop_and_Start exampleLib
      (newResourceServer "intel.com" "sock" examplePool)
      ["/var/lib/kubelet/plugins_registry/intel_sriov_vfio.sock"] none
      { removeDenied := none, listenErr := none, dialErr := some "context deadline exceeded" }).2.2
        (by decide) (by decide) rfl (by decide)).2⟩

/-! ### The `select` of `ListAndWatch` -/

/-- Claim C19 as stated fails: with a terminate signal and an update signal
both waiting, the `select` may take the update signal, and the handler then
sends a second device list although the terminate signal was waiting. -/
theorem ListAndWatch_update_taken_before_term :
    (ListAndWatchPending { exampleServing with termSignal := [true], updateSignal := [true] }
        (fun _ => examplePool.GetDevices) (fun _ => none) (fun _ => Signal.update)).2 =
      { sent := [{ Devices := examplePool.GetDevices.map Prod.snd },
                 { Devices := examplePool.GetDevices.map Prod.snd }],
        outcome := Outcome.returned none } := by
  decide

/-- The event loop of `ListAndWatch`, with a terminate signal waiting and
every send succeeding, sends one device list for each update signal it takes
before it takes the terminate signal, and returns nil then. -/
theorem watchPending_until_term (getDevices : Nat → GoMap Device) (pick : Nat → Signal)
    (t : Bool) (term upd : List Bool) (k : Nat) (sent : List ListAndWatchResponse) :
    watchPending getDevices (fun _ => none) pick (t :: term) upd k sent =
      ({ sent := sent ++ (List.range (updatesTaken pick k upd)).map
            (fun i => { Devices := (getDevices (k + i)).map Prod.snd }),
         outcome := Outcome.returned none },
        term, upd.drop (updatesTaken pick k upd)) := by
  induction upd generalizing k sent with
  | nil => simp [watchPending, updatesTaken]
  | cons u upd ih =>
    rw [watchPending, updatesTaken]
    cases hp : pick k with
    | term => simp [selectSignal]
    | update =>
      simp only [selectSignal, ih, collectDevices_eq_values, List.drop_succ_cons,
        List.append_assoc, List.singleton_append]
      rw [List.range_succ_eq_map]
      simp only [List.map_cons, List.map_map, Nat.add_zero]
      congr 3
      refine congrArg (List.cons _) (List.map_congr_left ?_)
      intro i _
      have e : k + 1 + i = k + Nat.succ i := by omega
      simp only [Function.comp_apply, e]

/-- The event loop of `ListAndWatch` returns when it receives the terminate
signal, whatever signals follow it. -/
theorem watchLoop_ignores_after_term (getDevices : Nat → GoMap Device)
    (sendErr : Nat → Option String) (pre rest : List Signal) (k : Nat)
    (sent : List ListAndWatchResponse) :
    watchLoop getDevices sendErr (pre ++ Signal.term :: rest) k sent =
      watchLoop getDevices sendErr (pre ++ [Signal.term]) k sent := by
  induction pre generalizing k sent with
  | nil => simp [watchLoop]
  | cons sig pre ih =>
    cases sig with
    | term => simp [watchLoop]
    | update =>
      simp only [List.cons_append, watchLoop]
      cases sendErr k with
      | some err => rfl
      | none => exact ih _ _

/-- Claim C19, amended. When a terminate signal and an update signal are both
waiting, the `select` of `ListAndWatch` takes either of them. With a
terminate signal waiting and every send succeeding, the handler sends,
after the initial device list, exactly one device list for each update
signal the `select` takes before it takes the terminate signal - none when
no update signal is waiting or the first `select` takes the terminate
signal, at least one when the first `select` takes a waiting update signal -
and returns nil when it takes the terminate signal; no response is sent after
the handler has received the terminate signal, whatever signals follow it. -/
theorem ListAndWatch_term_or_update (rs : resourceServer) (getDevices : Nat → GoMap Device)
    (pick : Nat → Signal) (t : Bool) (term : List Bool)
    (hterm : rs.termSignal = t :: term) :
    ListAndWatchPending rs getDevices (fun _ => none) pick =
      ({ rs with
          termSignal := term,
          updateSignal := rs.updateSignal.drop (updatesTaken pick 1 rs.updateSignal) },
        { sent := (List.range (updatesTaken pick 1 rs.updateSignal + 1)).map
            (fun k => { Devices := (getDevices k).map Prod.snd }),
          outcome := Outcome.returned none }) ∧
    ((rs.updateSignal = [] ∨ pick 1 = Signal.term) →
      updatesTaken pick 1 rs.updateSignal = 0) ∧
    ((rs.updateSignal ≠ [] ∧ pick 1 = Signal.update) →
      0 < updatesTaken pick 1 rs.updateSignal) ∧
    (∀ (sendErr : Nat → Option String) (pre rest : List Signal),
      ListAndWatch rs getDevices sendErr (pre ++ Signal.term :: rest) =
        ListAndWatch rs getDevices sendErr (pre ++ [Signal.term])) := by
  refine ⟨?_, ?_, ?_, ?_⟩
  · unfold ListAndWatchPending
    simp only [hterm, watchPending_until_term, collectDevices_eq_values, List.singleton_append]
    rw [List.range_succ_eq_map]
    simp only [List.map_cons, List.map_map]
    congr 3
    refine List.map_congr_left ?_
    intro i _
    have e : 1 + i = Nat.succ i := by omega
    simp only [Function.comp_apply, e]
  · intro h
    cases hu : rs.updateSignal with
    | nil => rfl
    | cons u upd =>
      rcases h with h | h
      · rw [hu] at h; cases h
      · simp [updatesTaken, h]
  · intro h
    cases hu : rs.updateSignal with
    | nil => exact absurd hu h.1
    | cons u upd => simp [updatesTaken, h.2]
  · intro sendErr pre rest
    unfold ListAndWatch
    cases sendErr 0 with
    | some err => rfl
    | none => simp only [watchLoop_ignores_after_term]

/-- Claim C19, amended, at a server with a terminate signal and two update
signals waiting: the `select` takes one update signal and then the terminate
signal; two device lists are sent in all and the second update signal is
left waiting. -/
theorem ListAndWatch_term_or_update_witness :
    (ListAndWatchPending
        { exampleServing with termSignal := [true], updateSignal := [true, true] }
        (fun _ => examplePool.GetDevices) (fun _ => none)
        (fun k => if k = 1 then Signal.update else Signal.term)).2 =
      { sent := [{ Devices := examplePool.GetDevices.map Prod.snd },
                 { Devices := examplePool.GetDevices.map Prod.snd }],
        outcome := Outcome.returned none } :=
  (congrArg Prod.snd
    (ListAndWatch_term_or_update
      { exampleServing with termSignal := [true], updateSignal := [true, true] }
      (fun _ => examplePool.GetDevices)
      (fun k => if k = 1 then Signal.update else Signal.term) true [] rfl).1).trans
    (by decide)

end Resources

/-! ### Discovery -/

namespace Sriovdp

/-- Claim C16 as stated fails: on a host whose only network device has no
`sriov_numvfs` file, and on a host with no network device at all,
`discoverNetworks` returns an error; the inventory stays empty. -/
theorem discoverNetworks_no_device_is_error :
    getSriovPfList exampleHost = ([], CallResult.returned none) ∧
    discoverNetworks exampleHost emptySriovManager =
      (emptySriovManager,
        CallResult.returned (some "Error. No SRIOV network device found")) ∧
    discoverNetworks { exampleHost with ReadDir := fun _ => ([], none) } emptySriovManager =
      (emptySriovManager,
        CallResult.returned (some "Error. No SRIOV network device found")) := by
  decide

/-- Claim C16, amended. Discovery on a host where no SR-IOV capable network
device is found fails: `discoverNetworks` returns the error
`Error. No SRIOV network device found` and leaves the manager, and so the
device inventory (`devices` and `managedDevices`), as it was. -/
theorem discoverNetworks_no_device (host : Host) (sm : sriovManager)
    (hnone : getSriovPfList host = ([], CallResult.returned none)) :
    discoverNetworks host sm =
      (sm, CallResult.returned (some "Error. No SRIOV network device found")) := by
  unfold discoverNetworks
  rw [hnone]
  simp

/-- Claim C16, amended, at a fresh manager on a host whose only network
device is the loopback device. -/
theorem discoverNetworks_no_device_witness :
    getSriovPfList exampleHost = ([], CallResult.returned none) ∧
    (discoverNetworks exampleHost emptySriovManager).2 =
      CallResult.returned (some "Error. No SRIOV network device found") ∧
    (discoverNetworks exampleHost emptySriovManager).1.devices = [] ∧
    (discoverNetworks exampleHost emptySriovManager).1.managedDevices = [] :=
  ⟨by decide,
    congrArg Prod.snd (discoverNetworks_no_device exampleHost emptySriovManager (by decide)),
    congrArg (fun r => r.1.devices)
      (discoverNetworks_no_device exampleHost emptySriovManager (by decide)),
    congrArg (fun r => r.1.managedDevices)
      (discoverNetworks_no_device exampleHost emptySriovManager (by decide))⟩

/-! ### The environment of the container responses -/

/-- Claim C17, the code at the failing input: a successful call with two
container requests, for `0000:03:02.0` and for `0000:03:02.1`; the
`SRIOV-VF-PCI-ADDR` value of the second container response lists the device
of the first container too. -/
theorem Allocate_second_container_env :
    (Allocate
        { emptySriovManager with
          devices := [("0000:03:02.0", ⟨"0000:03:02.0", Healthy⟩),
                      ("0000:03:02.1", ⟨"0000:03:02.1", Healthy⟩)] }
        ⟨[⟨"pod-1", "c0", ["0000:03:02.0"]⟩, ⟨"pod-1", "c1", ["0000:03:02.1"]⟩]⟩).2 =
      (some ⟨[⟨[("SRIOV-VF-PCI-ADDR", "0000:03:02.0,")]⟩,
              ⟨[("SRIOV-VF-PCI-ADDR", "0000:03:02.0,0000:03:02.1,")]⟩]⟩,
        none) := by
  decide

/-! ### The CNI endpoint -/

/-- The loop of `GetDeviceInfo` finds nothing to claim in a record whose
entries are all marked. -/
theorem claimFirst_all_claimed (ids : List String) :
    claimFirst (ids.map (fun d => ({ deviceID := d, allocated := true } : deviceEntry))) = none := by
  induction ids with
  | nil => rfl
  | cons d ids ih => simp [claimFirst, ih]

/-- The loop of `GetDeviceInfo` claims the first entry that is not marked,
and nothing else. -/
theorem claimFirst_first_unclaimed (pre : List String) (id : String) (post : List String) :
    claimFirst
      (pre.map (fun d => ({ deviceID := d, allocated := true } : deviceEntry)) ++
        ({ deviceID := id, allocated := false } : deviceEntry) ::
          post.map (fun d => ({ deviceID := d, allocated := false } : deviceEntry))) =
      some (id,
        pre.map (fun d => ({ deviceID := d, allocated := true } : deviceEntry)) ++
          ({ deviceID := id, allocated := true } : deviceEntry) ::
            post.map (fun d => ({ deviceID := d, allocated := false } : deviceEntry))) := by
  induction pre with
  | nil => simp [claimFirst]
  | cons d pre ih => simp [claimFirst, ih]

/-- A call of `GetDeviceInfo` leaves `managedDevices` alone. -/
theorem GetDeviceInfo_managedDevices (sm : sriovManager) (podUID : String)
    (podErr : Option String) :
    (GetDeviceInfo sm podUID podErr).1.managedDevices = sm.managedDevices := by
  unfold GetDeviceInfo
  cases podErr with
  | some err => rfl
  | none =>
    cases h1 : mapGet sm.allocatedDevices podUID with
    | none => simp [h1]
    | some podDevices =>
      cases h2 : claimFirst podDevices with
      | none => simp [h1, h2]
      | some r => simp [h1, h2]

/-- A call of `GetDeviceInfo` leaves the records of the other pods alone. -/
theorem GetDeviceInfo_other_pod (sm : sriovManager) (podUID other : String)
    (podErr : Option String) (hne : podUID ≠ other) :
    mapGet (GetDeviceInfo sm podUID podErr).1.allocatedDevices other =
      mapGet sm.allocatedDevices other := by
  unfold GetDeviceInfo
  cases podErr with
  | some err => rfl
  | none =>
    cases h1 : mapGet sm.allocatedDevices podUID with
    | none => simp [h1]
    | some podDevices =>
      cases h2 : claimFirst podDevices with
      | none => simp [h1, h2]
      | some r => simp [h1, h2, mapGet_mapSet_ne _ _ _ _ hne]

theorem GetDeviceInfoTimes_managedDevices (sm : sriovManager) (podUID : String) (k : Nat) :
    (GetDeviceInfoTimes sm podUID k).managedDevices = sm.managedDevices := by
  induction k with
  | zero => rfl
  | succ k ih =>
    rw [GetDeviceInfoTimes, GetDeviceInfo_managedDevices, ih]

theorem GetDeviceInfoTimes_other_pod (sm : sriovManager) (podUID other : String) (k : Nat)
    (hne : podUID ≠ other) :
    mapGet (GetDeviceInfoTimes sm podUID k).allocatedDevices other =
      mapGet sm.allocatedDevices other := by
  induction k with
  | zero => rfl
  | succ k ih =>
    rw [GetDeviceInfoTimes, GetDeviceInfo_other_pod _ _ _ _ hne, ih]

/-- A call of `GetDeviceInfo` on a record whose first unmarked entry is `id`
returns the VF information of `id` and marks that entry. -/
theorem GetDeviceInfo_claims (sm : sriovManager) (podUID : String) (pre : List String)
    (id : String) (post : List String)
    (hrec : mapGet sm.allocatedDevices podUID =
      some (pre.map (fun d => ({ deviceID := d, allocated := true } : deviceEntry)) ++
        (id :: post).map (fun d => ({ deviceID := d, allocated := false } : deviceEntry)))) :
    (GetDeviceInfo sm podUID none).2 = (mapGet sm.managedDevices id, none) ∧
    mapGet (GetDeviceInfo sm podUID none).1.allocatedDevices podUID =
      some ((pre ++ [id]).map (fun d => ({ deviceID := d, allocated := true } : deviceEntry)) ++
        post.map (fun d => ({ deviceID := d, allocated := false } : deviceEntry))) := by
  unfold GetDeviceInfo
  simp only [hrec, List.map_cons, claimFirst_first_unclaimed]
  refine ⟨trivial, ?_⟩
  rw [mapGet_mapSet_self]
  simp

/-- The record of the pod after as many calls of `GetDeviceInfo` as `pre` has
devices: the entries of `pre` are marked, the others are not. -/
theorem GetDeviceInfoTimes_record (sm : sriovManager) (podUID : String) (ids : List String)
    (hrec : mapGet sm.allocatedDevices podUID =
      some (ids.map (fun d => ({ deviceID := d, allocated := false } : deviceEntry))))
    (k : Nat) (pre post : List String) (hlen : pre.length = k) (hsplit : ids = pre ++ post) :
    mapGet (GetDeviceInfoTimes sm podUID k).allocatedDevices podUID =
      some (pre.map (fun d => ({ deviceID := d, allocated := true } : deviceEntry)) ++
        post.map (fun d => ({ deviceID := d, allocated := false } : deviceEntry))) := by
  induction k generalizing pre post with
  | zero =>
    have hpre : pre = [] := List.length_eq_zero.mp hlen
    subst hpre
    simp only [List.nil_append] at hsplit
    subst hsplit
    simpa [GetDeviceInfoTimes] using hrec
  | succ k ih =>
    rcases List.eq_nil_or_concat pre with hnil | ⟨pre2, x, hcat⟩
    · subst hnil; cases hlen
    · subst hcat
      have hlen2 : pre2.length = k := by simpa using hlen
      have hsplit2 : ids = pre2 ++ (x :: post) := by simpa using hsplit
      have h := ih pre2 (x :: post) hlen2 hsplit2
      rw [GetDeviceInfoTimes, List.concat_eq_append]
      exact (GetDeviceInfo_claims _ podUID pre2 x post h).2

/-- Claim C20. For a pod whose identity resolves and whose allocation record
holds the devices `ids`, all known to the manager and none yet claimed:
for every device `id` of the record, after as many calls of `GetDeviceInfo`
as devices precede it the next call succeeds and returns the VF information
of `id`; after as many calls as `pre` has devices exactly the entries of
`pre` are claimed; the call after the last device fails with the error
`all allocated VF(s) already assigned to CNI` and changes nothing; and no
call touches another pod's record. -/
theorem GetDeviceInfo_claims_in_order (sm : sriovManager) (podUID : String) (ids : List String)
    (hrec : mapGet sm.allocatedDevices podUID =
      some (ids.map (fun d => ({ deviceID := d, allocated := false } : deviceEntry))))
    (hknown : ∀ id ∈ ids, mapGet sm.managedDevices id ≠ none) :
    (∀ pre id post, ids = pre ++ id :: post →
      ∃ vf, mapGet sm.managedDevices id = some vf ∧
        (GetDeviceInfo (GetDeviceInfoTimes sm podUID pre.length) podUID none).2 =
          (some vf, none)) ∧
    (∀ pre post, ids = pre ++ post →
      mapGet (GetDeviceInfoTimes sm podUID pre.length).allocatedDevices podUID =
        some (pre.map (fun d => ({ deviceID := d, allocated := true } : deviceEntry)) ++
          post.map (fun d => ({ deviceID := d, allocated := false } : deviceEntry)))) ∧
    GetDeviceInfo (GetDeviceInfoTimes sm podUID ids.length) podUID none =
      (GetDeviceInfoTimes sm podUID ids.length,
        some { Pciaddr := "", Vfid := 0, Pfname := "" },
        some "all allocated VF(s) already assigned to CNI") ∧
    (∀ k other, podUID ≠ other →
      mapGet (GetDeviceInfoTimes sm podUID k).allocatedDevices other =
        mapGet sm.allocatedDevices other) := by
  refine ⟨?_, ?_, ?_, ?_⟩
  · intro pre id post hsplit
    have hmem : id ∈ ids := by rw [hsplit]; simp
    cases hvf : mapGet sm.managedDevices id with
    | none => exact absurd hvf (hknown id hmem)
    | some vf =>
      refine ⟨vf, rfl, ?_⟩
      have h := GetDeviceInfoTimes_record sm podUID ids hrec pre.length pre (id :: post) rfl hsplit
      rw [(GetDeviceInfo_claims _ podUID pre id post h).1,
        GetDeviceInfoTimes_managedDevices, hvf]
  · intro pre post hsplit
    exact GetDeviceInfoTimes_record sm podUID ids hrec pre.length pre post rfl hsplit
  · have h := GetDeviceInfoTimes_record sm podUID ids hrec ids.length ids [] rfl (by simp)
    unfold GetDeviceInfo
    simp only [h, List.map_nil, List.append_nil, claimFirst_all_claimed]
  · intro k other hne
    exact GetDeviceInfoTimes_other_pod sm podUID other k hne

/-- Claim C20 at a pod with two devices, next to another pod: the first call
returns the first device, the second call the second, and the third fails. -/
theorem GetDeviceInfo_claims_in_order_witness :
    (GetDeviceInfo
        { emptySriovManager with
          managedDevices := [("0000:03:02.0", ⟨"0000:03:02.0", 0, "ens1"⟩),
                             ("0000:03:02.1", ⟨"0000:03:02.1", 1, "ens1"⟩)],
          allocatedDevices := [("pod-1", [⟨"0000:03:02.0", false⟩, ⟨"0000:03:02.1", false⟩]),
                               ("pod-2", [⟨"0000:03:02.2", false⟩])] }
        "pod-1" none).2 = (some ⟨"0000:03:02.0", 0, "ens1"⟩, none) ∧
    (GetDeviceInfo
        (GetDeviceInfoTimes
          { emptySriovManager with
            managedDevices := [("0000:03:02.0", ⟨"0000:03:02.0", 0, "ens1"⟩),
                               ("0000:03:02.1", ⟨"0000:03:02.1", 1, "ens1"⟩)],
            allocatedDevices := [("pod-1", [⟨"0000:03:02.0", false⟩, ⟨"0000:03:02.1", false⟩]),
                                 ("pod-2", [⟨"0000:03:02.2", false⟩])] }
          "pod-1" 2)
        "pod-1" none).2 =
      (some ⟨"", 0, ""⟩, some "all allocated VF(s) already assigned to CNI") :=
  ⟨by decide,
    congrArg Prod.snd
      (GetDeviceInfo_claims_in_order
        { emptySriovManager with
          managedDevices := [("0000:03:02.0", ⟨"0000:03:02.0", 0, "ens1"⟩),
                             ("0000:03:02.1", ⟨"0000:03:02.1", 1, "ens1"⟩)],
          allocatedDevices := [("pod-1", [⟨"0000:03:02.0", false⟩, ⟨"0000:03:02.1", false⟩]),
                               ("pod-2", [⟨"0000:03:02.2", false⟩])] }
        "pod-1" ["0000:03:02.0", "0000:03:02.1"] (by decide) (by decide)).2.2.1⟩

end Sriovdp

/-! ### The feature gate -/

namespace Features

/-- A map write adds no pair but the written one. -/
theorem mem_mapSet {V : Type} (m : GoMap V) (k : String) (v : V) (kv : String × V)
    (h : kv ∈ mapSet m k v) : kv = (k, v) ∨ kv ∈ m := by
  induction m with
  | nil => simpa [mapSet] using h
  | cons e m ih =>
    obtain ⟨k', v'⟩ := e
    by_cases hk : k' = k
    · simp only [mapSet, hk, if_true, List.mem_cons] at h
      rcases h with h | h
      · exact Or.inl h
      · exact Or.inr (List.mem_cons_of_mem _ h)
    · simp only [mapSet, hk, if_false, List.mem_cons] at h
      rcases h with h | h
      · exact Or.inr (h ▸ List.mem_cons_self _ _)
      · rcases ih h with h2 | h2
        · exact Or.inl h2
        · exact Or.inr (List.mem_cons_of_mem _ h2)

/-- A map write keeps the keys of the map pairwise distinct. -/
theorem mapSet_keys_nodup {V : Type} (m : GoMap V) (k : String) (v : V)
    (h : (m.map Prod.fst).Nodup) : ((mapSet m k v).map Prod.fst).Nodup := by
  induction m with
  | nil => simp [mapSet]
  | cons e m ih =>
    obtain ⟨k', v'⟩ := e
    simp only [List.map_cons, List.nodup_cons] at h
    by_cases hk : k' = k
    · subst hk
      simpa [mapSet] using h
    · simp only [mapSet, hk, if_false, List.map_cons, List.nodup_cons]
      refine ⟨?_, ih h.2⟩
      intro hin
      obtain ⟨kv, hkv, hfst⟩ := List.mem_map.mp hin
      rcases mem_mapSet m k v kv hkv with h1 | h1
      · rw [h1] at hfst; exact hk hfst.symm
      · exact h.1 (List.mem_map.mpr ⟨kv, h1, hfst⟩)

/-- A key that no pair of the map has reads as missing. -/
theorem mapGet_eq_none_of_not_mem {V : Type} (m : GoMap V) (k : String)
    (h : k ∉ m.map Prod.fst) : mapGet m k = none := by
  induction m with
  | nil => rfl
  | cons e m ih =>
    obtain ⟨k', v'⟩ := e
    simp only [List.map_cons, List.mem_cons, not_or] at h
    have hne : ¬ k' = k := fun e => h.1 e.symm
    simp [mapGet, hne, ih h.2]

/-- A value read from a map belongs to a pair of the map. -/
theorem mem_of_mapGet {V : Type} (m : GoMap V) (k : String) (v : V)
    (h : mapGet m k = some v) : (k, v) ∈ m := by
  induction m with
  | nil => cases h
  | cons e m ih =>
    obtain ⟨k', v'⟩ := e
    by_cases hk : k' = k
    · simp only [mapGet, hk, if_true, Option.some.injEq] at h
      subst hk; subst h
      exact List.mem_cons_self _ _
    · simp only [mapGet, hk, if_false] at h
      exact List.mem_cons_of_mem _ (ih h)

/-- A pair of a map with pairwise distinct keys is what the map reads at
its key. -/
theorem mapGet_of_mem_nodup {V : Type} (m : GoMap V) (hd : (m.map Prod.fst).Nodup) (k : String)
    (v : V) (hin : (k, v) ∈ m) : mapGet m k = some v := by
  induction m with
  | nil => cases hin
  | cons e m ih =>
    obtain ⟨k', v'⟩ := e
    simp only [List.map_cons, List.nodup_cons] at hd
    rcases List.mem_cons.mp hin with he | he
    · cases he
      simp [mapGet]
    · have hne : ¬ k' = k := by
        intro heq
        exact hd.1 (List.mem_map.mpr ⟨(k, v), he, heq.symm⟩)
      simp only [mapGet, hne, if_false]
      exact ih hd.2 he

/-- A loop of map writes leaves alone a key it does not write. -/
theorem setLoop_get_absent {V : Type} (l : List (String × V)) (acc : GoMap V) (k : String)
    (h : k ∉ l.map Prod.fst) :
    mapGet (l.foldl (fun m kv => mapSet m kv.1 kv.2) acc) k = mapGet acc k := by
  induction l generalizing acc with
  | nil => rfl
  | cons e l ih =>
    simp only [List.map_cons, List.mem_cons, not_or] at h
    simp only [List.foldl_cons]
    rw [ih _ h.2]
    exact mapGet_mapSet_ne _ _ _ _ (fun e => h.1 e.symm)

/-- A loop of map writes under pairwise distinct keys holds every value it
writes. -/
theorem setLoop_get_present {V : Type} (l : List (String × V)) (acc : GoMap V)
    (hd : (l.map Prod.fst).Nodup) (k : String) (v : V) (hin : (k, v) ∈ l) :
    mapGet (l.foldl (fun m kv => mapSet m kv.1 kv.2) acc) k = some v := by
  induction l generalizing acc with
  | nil => cases hin
  | cons e l ih =>
    simp only [List.map_cons, List.nodup_cons] at hd
    simp only [List.foldl_cons]
    rcases List.mem_cons.mp hin with rfl | hin2
    · rw [setLoop_get_absent l _ _ hd.1]
      exact mapGet_mapSet_self _ _ _
    · exact ih _ hd.2 hin2

/-- The method `SetFromMap`, given supported features only, writes every
status and returns no error. -/
theorem SetFromMap_supported (fg : featureGate) (l : GoMap Bool)
    (h : ∀ kv ∈ l, isFeatureSupported fg kv.1 = true) :
    SetFromMap fg l =
      ({ fg with enabled := l.foldl (fun m kv => mapSet m kv.1 kv.2) fg.enabled }, none) := by
  induction l generalizing fg with
  | nil => rfl
  | cons e l ih =>
    obtain ⟨k, v⟩ := e
    have hk : isFeatureSupported fg k = true := h (k, v) (List.mem_cons_self _ _)
    have hrest : ∀ kv ∈ l,
        isFeatureSupported { fg with enabled := mapSet fg.enabled k v } kv.1 = true :=
      fun kv hkv => h kv (List.mem_cons_of_mem _ hkv)
    simp only [SetFromMap, set, hk, Bool.not_true, Bool.false_eq_true, if_false]
    rw [ih _ hrest]
    rfl

/-- The loop of `SetFromString`, on segments of the specified form, returns
no error and a map that holds, for every feature, the value of the last
segment naming it; the keys of the map stay pairwise distinct and
supported. -/
theorem parseSegments_wellFormed (trim : String → String) (fg : featureGate)
    (segs : List String) (m : GoMap Bool)
    (hwf : ∀ s ∈ segs, s ≠ "" → wellFormedSegment trim fg s = true)
    (hd : (m.map Prod.fst).Nodup) (hs : ∀ kv ∈ m, isFeatureSupported fg kv.1 = true) :
    (parseSegments trim segs m).2 = none ∧
    ((parseSegments trim segs m).1.map Prod.fst).Nodup ∧
    (∀ kv ∈ (parseSegments trim segs m).1, isFeatureSupported fg kv.1 = true) ∧
    (∀ f, mapGet (parseSegments trim segs m).1 f =
      match lastNamed trim segs f with
      | some b => some b
      | none => mapGet m f) := by
  induction segs generalizing m with
  | nil => exact ⟨rfl, hd, hs, fun f => rfl⟩
  | cons s rest ih =>
    have hrest : ∀ s2 ∈ rest, s2 ≠ "" → wellFormedSegment trim fg s2 = true :=
      fun s2 h2 => hwf s2 (List.mem_cons_of_mem _ h2)
    by_cases hempty : s = ""
    · subst hempty
      have hsplit : stringsSplit "" '=' = [""] := by decide
      obtain ⟨h1, h2, h3, h4⟩ := ih m hrest hd hs
      rw [parseSegments]
      simp only [if_true]
      refine ⟨h1, h2, h3, ?_⟩
      intro f
      rw [h4 f, lastNamed, hsplit]
      cases lastNamed trim rest f <;> rfl
    · have hw := hwf s (List.mem_cons_self _ _) hempty
      unfold wellFormedSegment at hw
      rcases hsp : stringsSplit s '=' with _ | ⟨k, _ | ⟨v, _ | ⟨w, t⟩⟩⟩
      · rw [hsp] at hw; cases hw
      · rw [hsp] at hw; cases hw
      · rw [hsp] at hw
        simp only [Bool.and_eq_true, Option.isNone_iff_eq_none] at hw
        obtain ⟨hsup, hparse⟩ := hw
        have hpb : ParseBool (trim v) = ((ParseBool (trim v)).1, none) := by
          rw [← hparse]
        have hd2 := mapSet_keys_nodup m (trim k) (ParseBool (trim v)).1 hd
        have hs2 : ∀ kv ∈ mapSet m (trim k) (ParseBool (trim v)).1,
            isFeatureSupported fg kv.1 = true := by
          intro kv hkv
          rcases mem_mapSet _ _ _ _ hkv with h1 | h1
          · rw [h1]; exact hsup
          · exact hs kv h1
        obtain ⟨h1, h2, h3, h4⟩ := ih (mapSet m (trim k) (ParseBool (trim v)).1) hrest hd2 hs2
        have hstep : parseSegments trim (s :: rest) m =
            parseSegments trim rest (mapSet m (trim k) (ParseBool (trim v)).1) := by
          rw [parseSegments]
          simp only [hempty, if_false, hsp, List.length_cons, List.length_nil, List.headD_cons,
            List.getD_cons_succ, List.getD_cons_zero, ne_eq, not_true_eq_false]
          rw [hpb]
        rw [hstep]
        refine ⟨h1, h2, h3, ?_⟩
        intro f
        rw [h4 f, lastNamed, hsp]
        cases lastNamed trim rest f with
        | some b => rfl
        | none =>
          by_cases hf : trim k = f
          · subst hf
            simp [mapGet_mapSet_self]
          · simp [hf, mapGet_mapSet_ne _ _ _ _ hf]
      · rw [hsp] at hw; cases hw

/-- Claim C18. For every string whose non-empty comma-separated segments each
have the form `key=value` with exactly one `=`, a key that after trimming
names a supported feature and a value that after trimming `strconv.ParseBool`
accepts, `SetFromString` returns no error, and afterwards the enablement
status of each named feature equals the value of the last segment naming it
while every feature not named keeps its previous status; the empty string
changes nothing. -/
theorem SetFromString_sets_last_value (trim : String → String)
    (rangeOrder : GoMap Bool → GoMap Bool) (fg : featureGate) (value : String)
    (horder : ∀ m, (rangeOrder m).Perm m)
    (hwf : ∀ s ∈ stringsSplit value ',', s ≠ "" → wellFormedSegment trim fg s = true) :
    (SetFromString trim rangeOrder fg value).2 = none ∧
    (SetFromString trim rangeOrder fg value).1.knownFeatures = fg.knownFeatures ∧
    (∀ f, mapGet (SetFromString trim rangeOrder fg value).1.enabled f =
      match lastNamed trim (stringsSplit value ',') f with
      | some b => some b
      | none => mapGet fg.enabled f) ∧
    (∀ f b, lastNamed trim (stringsSplit value ',') f = some b →
      Enabled (SetFromString trim rangeOrder fg value).1 f = b) ∧
    SetFromString trim rangeOrder fg "" = (fg, none) := by
  obtain ⟨h1, h2, h3, h4⟩ :=
    parseSegments_wellFormed trim fg (stringsSplit value ',') [] hwf (by simp) (by simp)
  have hperm := horder (parseSegments trim (stringsSplit value ',') []).1
  have hsup : ∀ kv ∈ rangeOrder (parseSegments trim (stringsSplit value ',') []).1,
      isFeatureSupported fg kv.1 = true := fun kv hkv => h3 kv (hperm.subset hkv)
  have hnodup : ((rangeOrder (parseSegments trim (stringsSplit value ',') []).1).map
      Prod.fst).Nodup := (hperm.map Prod.fst).nodup_iff.mpr h2
  have hrun : SetFromString trim rangeOrder fg value =
      ({ fg with
          enabled :=
            List.foldl (fun m kv => mapSet m kv.1 kv.2) fg.enabled
              (rangeOrder (parseSegments trim (stringsSplit value ',') []).1) }, none) := by
    unfold SetFromString
    rcases hp : parseSegments trim (stringsSplit value ',') [] with ⟨fm, err⟩
    rw [hp] at h1 hsup
    simp only at h1
    subst h1
    simp only
    exact SetFromMap_supported fg _ hsup
  have hval : ∀ f, mapGet (SetFromString trim rangeOrder fg value).1.enabled f =
      match lastNamed trim (stringsSplit value ',') f with
      | some b => some b
      | none => mapGet fg.enabled f := by
    intro f
    rw [hrun]
    simp only
    have h4f := h4 f
    cases hl : lastNamed trim (stringsSplit value ',') f with
    | some b =>
      rw [hl] at h4f
      simp only at h4f ⊢
      have hmem := hperm.symm.subset (mem_of_mapGet _ _ _ h4f)
      exact setLoop_get_present _ _ hnodup f b hmem
    | none =>
      rw [hl] at h4f
      simp only at h4f ⊢
      apply setLoop_get_absent
      intro hin
      obtain ⟨kv, hkv, hfst⟩ := List.mem_map.mp hin
      obtain ⟨k2, v2⟩ := kv
      simp only at hfst
      subst hfst
      have hget := mapGet_of_mem_nodup _ h2 k2 v2 (hperm.subset hkv)
      rw [hget] at h4f
      cases h4f
  refine ⟨?_, ?_, hval, ?_, ?_⟩
  · rw [hrun]
  · rw [hrun]
  · intro f b hl
    have := hval f
    rw [hl] at this
    simp only at this
    simp [Enabled, this]
  · have hsplit : stringsSplit "" ',' = [""] := by decide
    have hnil : rangeOrder [] = [] := List.Perm.eq_nil (horder [])
    simp [SetFromString, hsplit, parseSegments, hnil, SetFromMap]

/-- Claim C18 at the default feature gate: the string names `alphaFeature`
twice, with blanks around keys and values and an empty segment. -/
theorem SetFromString_sets_last_value_witness :
    (∀ m : GoMap Bool, (id m).Perm m) ∧
    (∀ s ∈ stringsSplit "alphaFeature=true,, betaFeature = F ,alphaFeature=0" ',',
      s ≠ "" → wellFormedSegment exampleTrim newFeatureGate s = true) ∧
    (SetFromString exampleTrim id newFeatureGate
      "alphaFeature=true,, betaFeature = F ,alphaFeature=0").2 = none ∧
    (SetFromString exampleTrim id newFeatureGate
      "alphaFeature=true,, betaFeature = F ,alphaFeature=0").1.enabled =
      [("alphaFeature", false), ("betaFeature", false), ("gaFeature", true),
       ("deprecatedFeature", false)] :=
  ⟨fun m => List.Perm.refl m, by decide,
    (SetFromString_sets_last_value exampleTrim id newFeatureGate
      "alphaFeature=true,, betaFeature = F ,alphaFeature=0"
      (fun m => List.Perm.refl m) (by decide)).1,
    by decide⟩

end Features

/-! ### The VFIO info provider -/

namespace Resources

open Pluginapi

/-- The digit of a number below ten is not the letter `v`. -/
theorem digitChar_ne_v (d : Nat) (h : d < 10) : Nat.digitChar d ≠ 'v' := by
  interval_cases d <;> decide

/-- No decimal digit that `Nat.toDigitsCore` writes is the letter `v`. -/
theorem toDigitsCore_no_v (fuel n : Nat) (ds : List Char) (hds : ∀ c ∈ ds, c ≠ 'v') :
    ∀ c ∈ Nat.toDigitsCore 10 fuel n ds, c ≠ 'v' := by
  induction fuel generalizing n ds with
  | zero => simpa [Nat.toDigitsCore] using hds
  | succ fuel ih =>
    have hcons : ∀ c ∈ Nat.digitChar (n % 10) :: ds, c ≠ 'v' := by
      intro c hc
      rcases List.mem_cons.mp hc with rfl | hc
      · exact digitChar_ne_v _ (Nat.mod_lt _ (by decide))
      · exact hds c hc
    unfold Nat.toDigitsCore
    by_cases hz : n / 10 = 0
    · simpa [hz] using hcons
    · simpa [hz] using ih _ _ hcons

/-- The decimal writing of a number is not the word `vfio`. -/
theorem toString_ne_vfio (g : Nat) : toString g ≠ "vfio" := by
  intro h
  have hdata : (toString g).data = Nat.toDigits 10 g := rfl
  have hv : 'v' ∈ (toString g).data := by rw [h]; decide
  rw [hdata] at hv
  exact toDigitsCore_no_v _ _ [] (by simp) 'v' hv rfl

/-- The device node of an IOMMU group is not the shared control node. -/
theorem groupNode_ne_controlNode (g : Nat) : "/dev/vfio/" ++ toString g ≠ "/dev/vfio/vfio" := by
  intro h
  have h2 : ("/dev/vfio/" ++ toString g).data = ("/dev/vfio/" ++ "vfio" : String).data := by
    rw [h]; decide
  rw [String.data_append, String.data_append] at h2
  have h3 := List.append_cancel_left h2
  exact toString_ne_vfio g (String.ext h3)

/-- Claim C15. For every PCI address and host file system, the VFIO info
provider's `GetDeviceSpecs` returns the shared control node `/dev/vfio/vfio`
exactly once, plus the device-specific node `/dev/vfio/<g>` exactly when the
address resolves to an IOMMU group `g` (and no device-specific node
otherwise); every returned spec has its container path equal to its host
path and the permissions `mrw`. -/
theorem vfioGetDeviceSpecs_nodes (iommuGroup : String → Option Nat) (pciAddr : String) :
    ((vfioGetDeviceSpecs iommuGroup pciAddr).map DeviceSpec.HostPath).count "/dev/vfio/vfio" = 1 ∧
    (∀ g, iommuGroup pciAddr = some g →
      (vfioGetDeviceSpecs iommuGroup pciAddr).map DeviceSpec.HostPath =
        ["/dev/vfio/" ++ toString g, "/dev/vfio/vfio"]) ∧
    (iommuGroup pciAddr = none →
      (vfioGetDeviceSpecs iommuGroup pciAddr).map DeviceSpec.HostPath = ["/dev/vfio/vfio"]) ∧
    (∀ sp ∈ vfioGetDeviceSpecs iommuGroup pciAddr,
      sp.ContainerPath = sp.HostPath ∧ sp.Permissions = "mrw") := by
  unfold vfioGetDeviceSpecs
  cases h : iommuGroup pciAddr with
  | none => simp
  | some g =>
    refine ⟨?_, ?_, ?_, ?_⟩
    · simp [List.count_cons, groupNode_ne_controlNode g]
    · intro g2 hg2
      cases hg2
      rfl
    · intro hn; cases hn
    · intro sp hsp
      simp only [List.cons_append, List.nil_append, List.mem_cons, List.mem_singleton,
        List.not_mem_nil, or_false] at hsp
      rcases hsp with rfl | rfl <;> exact ⟨rfl, rfl⟩

/-- Claim C15 at the two hosts of the test table: the address
`0000:02:00.0` in IOMMU group 0, and the empty address on a host with no
device. -/
theorem vfioGetDeviceSpecs_nodes_witness :
    vfioGetDeviceSpecs (fun addr => if addr = "0000:02:00.0" then some 0 else none)
        "0000:02:00.0" =
      [⟨"/dev/vfio/0", "/dev/vfio/0", "mrw"⟩, ⟨"/dev/vfio/vfio", "/dev/vfio/vfio", "mrw"⟩] ∧
    (vfioGetDeviceSpecs (fun _ => none) "").map DeviceSpec.HostPath = ["/dev/vfio/vfio"] :=
  ⟨by decide, (vfioGetDeviceSpecs_nodes (fun _ => none) "").2.2.1 rfl⟩

end Resources

/-! ### Device specs without duplicates -/

namespace Netdevice

open Pluginapi

/-- The inner loop of `GetDeviceSpecs` keeps the list free of specs that
`DeviceSpecExist` finds among the specs before them. -/
theorem appendNewSpecs_noExist (exist : List DeviceSpec → DeviceSpec → Bool)
    (devSpecs l : List DeviceSpec)
    (h : ∀ pre sp post, devSpecs = pre ++ sp :: post → exist pre sp = false) :
    ∀ pre sp post, appendNewSpecs exist devSpecs l = pre ++ sp :: post →
      exist pre sp = false := by
  induction l generalizing devSpecs with
  | nil => exact h
  | cons ds l ih =>
    rw [appendNewSpecs]
    by_cases he : exist devSpecs ds = true
    · simp only [he, Bool.not_true, Bool.false_eq_true, if_false]
      exact ih devSpecs h
    · simp only [he, Bool.not_false, if_true]
      apply ih
      intro pre sp post hsplit
      rcases List.eq_nil_or_concat post with hnil | ⟨post2, x, hcat⟩
      · subst hnil
        have hinj := List.append_inj' hsplit (by simp)
        obtain ⟨h1, h2⟩ := hinj
        simp only [List.cons.injEq, and_true] at h2
        subst h1; subst h2
        simpa using he
      · subst hcat
        rw [List.concat_eq_append, ← List.cons_append, ← List.append_assoc] at hsplit
        have hinj := List.append_inj' hsplit (by simp)
        exact h pre sp post2 hinj.1

/-- The inner loop of `GetDeviceSpecs` appends a sublist of the new specs, in
their order. -/
theorem appendNewSpecs_sublist (exist : List DeviceSpec → DeviceSpec → Bool)
    (devSpecs l : List DeviceSpec) :
    ∃ r, appendNewSpecs exist devSpecs l = devSpecs ++ r ∧ r.Sublist l := by
  induction l generalizing devSpecs with
  | nil => exact ⟨[], by simp [appendNewSpecs], List.Sublist.refl _⟩
  | cons ds l ih =>
    rw [appendNewSpecs]
    by_cases he : exist devSpecs ds = true
    · simp only [he, Bool.not_true, Bool.false_eq_true, if_false]
      obtain ⟨r, hr, hsub⟩ := ih devSpecs
      exact ⟨r, hr, hsub.cons _⟩
    · simp only [he, Bool.not_false, if_true]
      obtain ⟨r, hr, hsub⟩ := ih (devSpecs ++ [ds])
      exact ⟨ds :: r, by simp [hr], hsub.cons₂ _⟩

/-- A list in which no element is related to an element before it is
pairwise unrelated. -/
theorem pairwise_of_splits {R : DeviceSpec → DeviceSpec → Prop} (l : List DeviceSpec)
    (h : ∀ pre sp post, l = pre ++ sp :: post → ∀ a ∈ pre, R a sp) : l.Pairwise R := by
  induction l with
  | nil => exact List.Pairwise.nil
  | cons x xs ih =>
    refine List.Pairwise.cons ?_ (ih ?_)
    · intro y hy
      obtain ⟨p, q, hpq⟩ := List.append_of_mem hy
      exact h (x :: p) y q (by simp [hpq]) x (List.mem_cons_self _ _)
    · intro pre sp post hsplit a ha
      exact h (x :: pre) sp post (by simp [hsplit]) a (List.mem_cons_of_mem _ ha)

/-- Claim C21. For every device pool with a selector and every request list
naming network devices of the pool or unknown IDs - also one that repeats a
device ID or names devices that share a device node - `GetDeviceSpecs`
returns a list in which no spec is one that `DeviceSpecExist` finds among the
specs before it, and whose specs appear in the order of their first
occurrence over the requested IDs: the list is a sublist of the specs of the
requested devices in request order, and when `DeviceSpecExist` is the search
for a spec that is the same as the new one, the returned specs are pairwise
not the same, every spec with no same spec before it over the requested IDs
is returned, and every spec of a requested device is returned or the same as
a returned one. -/
theorem GetDeviceSpecs_first_occurrences (rp : netResourcePool) (selectors : NetDeviceSelectors)
    (deviceIDs : List String) (hsel : rp.selectors = some selectors)
    (hnet : ∀ id ∈ deviceIDs, mapGet rp.devicePool id ≠ some PciDevice.other) :
    ∃ result, GetDeviceSpecs rp deviceIDs = some result ∧
      (∀ pre sp post, result = pre ++ sp :: post → rp.DeviceSpecExist pre sp = false) ∧
      result.Sublist ((requestedNetDevices rp deviceIDs).flatMap (specifiedSpecs selectors)) ∧
      (∀ same : DeviceSpec → DeviceSpec → Prop,
        (∀ specs ds, rp.DeviceSpecExist specs ds = true ↔ ∃ sp ∈ specs, same sp ds) →
        result.Pairwise (fun a b => ¬ same a b) ∧
        (∀ before c after,
          (requestedNetDevices rp deviceIDs).flatMap (specifiedSpecs selectors) =
            before ++ c :: after →
          (∀ b ∈ before, ¬ same b c) → c ∈ result) ∧
        (∀ c ∈ (requestedNetDevices rp deviceIDs).flatMap (specifiedSpecs selectors),
          c ∈ result ∨ ∃ sp ∈ result, same sp c)) := by
  have hrun := getDeviceSpecsLoop_eq_specified rp selectors hsel deviceIDs hnet []
  have hno := appendNewSpecs_noExist rp.DeviceSpecExist []
    ((requestedNetDevices rp deviceIDs).flatMap (specifiedSpecs selectors))
    (fun pre sp post h => by simp at h)
  refine ⟨_, hrun, hno, ?_, ?_⟩
  · obtain ⟨r, hr, hsub⟩ := appendNewSpecs_sublist rp.DeviceSpecExist []
      ((requestedNetDevices rp deviceIDs).flatMap (specifiedSpecs selectors))
    rw [hr]
    simpa using hsub
  · intro same hsame
    refine ⟨?_, ?_, ?_⟩
    · apply pairwise_of_splits
      intro pre sp post hsplit a ha hs
      have hfalse := hno pre sp post hsplit
      have htrue := (hsame pre sp).mpr ⟨a, ha, hs⟩
      rw [hfalse] at htrue
      cases htrue
    · intro before c after hsplit hfirst
      have hne : rp.DeviceSpecExist (appendNewSpecs rp.DeviceSpecExist [] before) c = false := by
        cases hex : rp.DeviceSpecExist (appendNewSpecs rp.DeviceSpecExist [] before) c with
        | false => rfl
        | true =>
          obtain ⟨sp, hsp, hs⟩ := (hsame _ _).mp hex
          rcases mem_appendNewSpecs _ _ _ _ hsp with h1 | h1
          · cases h1
          · exact absurd hs (hfirst sp h1)
      rw [hsplit, appendNewSpecs_append, appendNewSpecs]
      simp only [hne, Bool.not_false, if_true]
      exact (appendNewSpecs_extends rp.DeviceSpecExist _ after).subset (by simp)
    · intro c hc
      rcases appendNewSpecs_covers rp.DeviceSpecExist [] _ c hc with h1 | ⟨pre, hpre, hex⟩
      · exact Or.inl h1
      · obtain ⟨sp, hsp, hs⟩ := (hsame _ _).mp hex
        exact Or.inr ⟨sp, hpre.subset hsp, hs⟩

/-- Claim C21 at a request that repeats a device ID and names two devices
sharing the VFIO control node: each node is returned once, in the order of
its first occurrence. -/
theorem GetDeviceSpecs_first_occurrences_witness :
    examplePool.selectors = some { IsRdma := true } ∧
    (∀ id ∈ ["0000:03:00.0", "0000:03:00.1", "0000:03:00.0"],
      mapGet examplePool.devicePool id ≠ some PciDevice.other) ∧
    GetDeviceSpecs examplePool ["0000:03:00.0", "0000:03:00.1", "0000:03:00.0"] =
      some [⟨"/dev/vfio/vfio", "/dev/vfio/vfio", "mrw"⟩, ⟨"/dev/vfio/7", "/dev/vfio/7", "mrw"⟩,
        ⟨"/dev/infiniband/uverbs0", "/dev/infiniband/uverbs0", "rwm"⟩,
        ⟨"/dev/vfio/8", "/dev/vfio/8", "mrw"⟩] ∧
    ∃ result, GetDeviceSpecs examplePool ["0000:03:00.0", "0000:03:00.1", "0000:03:00.0"] =
        some result ∧
      result.Pairwise (fun a b => ¬ a.HostPath = b.HostPath) := by
  refine ⟨rfl, by decide, by decide, ?_⟩
  obtain ⟨result, hres, _, _, hsame⟩ :=
    GetDeviceSpecs_first_occurrences examplePool { IsRdma := true }
      ["0000:03:00.0", "0000:03:00.1", "0000:03:00.0"] rfl (by decide)
  refine ⟨result, hres, (hsame (fun a b => a.HostPath = b.HostPath) ?_).1⟩
  intro specs ds
  simp [examplePool]

end Netdevice
